import Mathlib

/-!
Shallow embedding of `src/blake2s-altivec.c`: the BLAKE2s compression
function written with PowerPC AltiVec vector intrinsics, together with the
scalar reference pipeline described by the specification, and proofs
relating the two.

Modelling conventions.
* Machine words are `Nat` with explicit reduction modulo `2^32`; bytes are
  `Nat` with explicit reduction modulo `256`.
* An AltiVec register is big-endian: a `vector unsigned int` has four
  32-bit lanes, lane `j` occupying register bytes `4*j .. 4*j+3`, most
  significant byte first.  We model a `vector unsigned int` as a structure
  of four words (`Vu32`) and a `vector unsigned char` as a structure of
  sixteen bytes (`Vu8`), with the two explicit reinterpretation maps
  `bytesToWords` / `wordsToBytes`.
* Intrinsics that act on byte granularity (`vec_perm`, `vec_sld`) are
  defined on the byte view; `vec_sldw` is `vec_sld` at type
  `vector unsigned int`, i.e. reinterpret, byte-shift, reinterpret back.
* The 64-byte message block is a function `Nat → Nat` giving the byte at
  each offset; only offsets `0 .. 63` are ever read.
-/

namespace B2S

/-- `2^32`, the modulus of a 32-bit word. -/
def w32 : Nat := 4294967296

/-- Wrapping 32-bit addition (lane-wise `+=` on `vector unsigned int`). -/
def add32 (a b : Nat) : Nat := (a + b) % w32

/-- 32-bit xor; operands are first reduced to their low 32 bits. -/
def xor32 (a b : Nat) : Nat := (a % w32) ^^^ (b % w32)

/-- One lane of AltiVec `vec_rl`: rotate left by `n mod 32` bits. -/
def rotl32 (x n : Nat) : Nat :=
  (((x % w32) <<< (n % 32)) % w32) ||| ((x % w32) >>> (32 - n % 32))

/-- 32-bit rotate right, as written in the specification of G. -/
def rotr32 (x n : Nat) : Nat :=
  ((x % w32) >>> (n % 32)) ||| (((x % w32) <<< (32 - n % 32)) % w32)

/-- A `vector unsigned int`: four 32-bit lanes, `w0` in the most
significant (lowest-addressed) position. -/
structure Vu32 where
  w0 : Nat
  w1 : Nat
  w2 : Nat
  w3 : Nat

/-- A `vector unsigned char`: sixteen byte lanes, `b0` lowest-addressed. -/
structure Vu8 where
  b0 : Nat
  b1 : Nat
  b2 : Nat
  b3 : Nat
  b4 : Nat
  b5 : Nat
  b6 : Nat
  b7 : Nat
  b8 : Nat
  b9 : Nat
  b10 : Nat
  b11 : Nat
  b12 : Nat
  b13 : Nat
  b14 : Nat
  b15 : Nat

/-- Lane-wise vector addition. -/
def vadd (x y : Vu32) : Vu32 :=
  ⟨add32 x.w0 y.w0, add32 x.w1 y.w1, add32 x.w2 y.w2, add32 x.w3 y.w3⟩

/-- Lane-wise vector xor. -/
def vxor (x y : Vu32) : Vu32 :=
  ⟨xor32 x.w0 y.w0, xor32 x.w1 y.w1, xor32 x.w2 y.w2, xor32 x.w3 y.w3⟩

/-- AltiVec `vec_rl v l`: lane-wise rotate left of `v` by the amounts `l`. -/
def vrl (l : Vu32) (v : Vu32) : Vu32 :=
  ⟨rotl32 v.w0 l.w0, rotl32 v.w1 l.w1, rotl32 v.w2 l.w2, rotl32 v.w3 l.w3⟩

/-- `static const vu32 vr1 = {16,16,16,16};` -/
def vr1 : Vu32 := ⟨16, 16, 16, 16⟩

/-- `static const vu32 vr2 = {20,20,20,20};` -/
def vr2 : Vu32 := ⟨20, 20, 20, 20⟩

/-- `static const vu32 vr3 = {24,24,24,24};` -/
def vr3 : Vu32 := ⟨24, 24, 24, 24⟩

/-- `static const vu32 vr4 = {25,25,25,25};` -/
def vr4 : Vu32 := ⟨25, 25, 25, 25⟩

/-- A big-endian 32-bit word assembled from four bytes (each reduced
mod 256, as the hardware reads 8-bit lanes). -/
def ofBytes (b0 b1 b2 b3 : Nat) : Nat :=
  (b0 % 256) * 16777216 + (b1 % 256) * 65536 + (b2 % 256) * 256 + b3 % 256

/-- Reinterpret 16 bytes as 4 big-endian 32-bit words. -/
def bytesToWords (b : Vu8) : Vu32 :=
  ⟨ofBytes b.b0 b.b1 b.b2 b.b3, ofBytes b.b4 b.b5 b.b6 b.b7,
    ofBytes b.b8 b.b9 b.b10 b.b11, ofBytes b.b12 b.b13 b.b14 b.b15⟩

/-- Reinterpret 4 words as 16 bytes, big-endian within each word. -/
def wordsToBytes (v : Vu32) : Vu8 :=
  ⟨(v.w0 >>> 24) % 256, (v.w0 >>> 16) % 256, (v.w0 >>> 8) % 256, v.w0 % 256,
   (v.w1 >>> 24) % 256, (v.w1 >>> 16) % 256, (v.w1 >>> 8) % 256, v.w1 % 256,
   (v.w2 >>> 24) % 256, (v.w2 >>> 16) % 256, (v.w2 >>> 8) % 256, v.w2 % 256,
   (v.w3 >>> 24) % 256, (v.w3 >>> 16) % 256, (v.w3 >>> 8) % 256, v.w3 % 256⟩

/-- Byte `n mod 32` of the 32-byte concatenation of `x` and `y`, as
`vec_perm` and `vec_sld` address bytes. -/
def concatByte (x y : Vu8) (n : Nat) : Nat :=
  if n % 32 = 0 then x.b0 else if n % 32 = 1 then x.b1
  else if n % 32 = 2 then x.b2 else if n % 32 = 3 then x.b3
  else if n % 32 = 4 then x.b4 else if n % 32 = 5 then x.b5
  else if n % 32 = 6 then x.b6 else if n % 32 = 7 then x.b7
  else if n % 32 = 8 then x.b8 else if n % 32 = 9 then x.b9
  else if n % 32 = 10 then x.b10 else if n % 32 = 11 then x.b11
  else if n % 32 = 12 then x.b12 else if n % 32 = 13 then x.b13
  else if n % 32 = 14 then x.b14 else if n % 32 = 15 then x.b15
  else if n % 32 = 16 then y.b0 else if n % 32 = 17 then y.b1
  else if n % 32 = 18 then y.b2 else if n % 32 = 19 then y.b3
  else if n % 32 = 20 then y.b4 else if n % 32 = 21 then y.b5
  else if n % 32 = 22 then y.b6 else if n % 32 = 23 then y.b7
  else if n % 32 = 24 then y.b8 else if n % 32 = 25 then y.b9
  else if n % 32 = 26 then y.b10 else if n % 32 = 27 then y.b11
  else if n % 32 = 28 then y.b12 else if n % 32 = 29 then y.b13
  else if n % 32 = 30 then y.b14 else y.b15

/-- AltiVec `vec_perm v w p`: result byte `i` is byte `p i mod 32` of the
32-byte concatenation of `v` and `w`. -/
def vec_perm (v w : Vu8) (p : Vu8) : Vu8 :=
  ⟨concatByte v w p.b0, concatByte v w p.b1, concatByte v w p.b2,
   concatByte v w p.b3, concatByte v w p.b4, concatByte v w p.b5,
   concatByte v w p.b6, concatByte v w p.b7, concatByte v w p.b8,
   concatByte v w p.b9, concatByte v w p.b10, concatByte v w p.b11,
   concatByte v w p.b12, concatByte v w p.b13, concatByte v w p.b14,
   concatByte v w p.b15⟩

/-- AltiVec `vec_sld x y z`: shift the 32-byte concatenation of `x` and `y`
left by `z` bytes, keeping the high 16 bytes (result byte `i` is
concatenation byte `i + z`; every use has `z ≤ 15`). -/
def vec_sld (x y : Vu8) (z : Nat) : Vu8 :=
  ⟨concatByte x y (0 + z), concatByte x y (1 + z), concatByte x y (2 + z),
   concatByte x y (3 + z), concatByte x y (4 + z), concatByte x y (5 + z),
   concatByte x y (6 + z), concatByte x y (7 + z), concatByte x y (8 + z),
   concatByte x y (9 + z), concatByte x y (10 + z), concatByte x y (11 + z),
   concatByte x y (12 + z), concatByte x y (13 + z), concatByte x y (14 + z),
   concatByte x y (15 + z)⟩

/-- `vec_sld` applied at type `vector unsigned int`: the register content is
byte-shifted, so reinterpret as bytes, shift, reinterpret back. -/
def vec_sldw (x y : Vu32) (z : Nat) : Vu32 :=
  bytesToWords (vec_sld (wordsToBytes x) (wordsToBytes y) z)

/-- `static const vu32 mask_1 = {0xff000000, …};` -/
def mask_1 : Vu32 := ⟨0xff000000, 0xff000000, 0xff000000, 0xff000000⟩

/-- `static const vu32 mask_2 = {0x00ff0000, …};` -/
def mask_2 : Vu32 := ⟨0x00ff0000, 0x00ff0000, 0x00ff0000, 0x00ff0000⟩

/-- `static const vu32 mask_3 = {0x0000ff00, …};` -/
def mask_3 : Vu32 := ⟨0x0000ff00, 0x0000ff00, 0x0000ff00, 0x0000ff00⟩

/-- `static const vu32 mask_4 = {0x000000ff, …};` -/
def mask_4 : Vu32 := ⟨0x000000ff, 0x000000ff, 0x000000ff, 0x000000ff⟩

/-- AltiVec `vec_sel x y m`: for each bit, pick the bit of `y` where the
mask bit is set, else the bit of `x`.  The masks used are 32-bit constants,
so the complement is taken inside 32 bits. -/
def vec_sel (x y m : Vu32) : Vu32 :=
  ⟨(x.w0 &&& (0xffffffff ^^^ m.w0)) ||| (y.w0 &&& m.w0),
   (x.w1 &&& (0xffffffff ^^^ m.w1)) ||| (y.w1 &&& m.w1),
   (x.w2 &&& (0xffffffff ^^^ m.w2)) ||| (y.w2 &&& m.w2),
   (x.w3 &&& (0xffffffff ^^^ m.w3)) ||| (y.w3 &&& m.w3)⟩

/-- Lane-wise bitwise and (`&` on `vector unsigned int`). -/
def vand (x y : Vu32) : Vu32 :=
  ⟨x.w0 &&& y.w0, x.w1 &&& y.w1, x.w2 &&& y.w2, x.w3 &&& y.w3⟩

/-- Lane-wise bitwise or (`|` on `vector unsigned int`). -/
def vor (x y : Vu32) : Vu32 :=
  ⟨x.w0 ||| y.w0, x.w1 ||| y.w1, x.w2 ||| y.w2, x.w3 ||| y.w3⟩

/-- The C macro `SELW(x,y,z,w)`: per 32-bit lane, byte 0 from `x`, byte 1
from `y`, byte 2 from `z`, byte 3 from `w`, realized with `vec_sel` and the
four byte masks. -/
def SELW (x y z w : Vu32) : Vu32 :=
  vor (vec_sel (vand x mask_1) y mask_2) (vec_sel (vand z mask_3) w mask_4)

/-- AltiVec `vec_mergeh x y` on 4-lane words: `(x0, y0, x1, y1)`. -/
def vec_mergeh (x y : Vu32) : Vu32 := ⟨x.w0, y.w0, x.w1, y.w1⟩

/-- AltiVec `vec_mergel x y` on 4-lane words: `(x2, y2, x3, y3)`. -/
def vec_mergel (x y : Vu32) : Vu32 := ⟨x.w2, y.w2, x.w3, y.w3⟩

/-!  The constant tables of the source file. -/

/-- The entries of `static const vu8 blake2s_vsigma[10]`, row by row
(row index first, byte index second); out-of-range indices give 0, which no
use exercises. -/
def vsig : Nat → Nat → Nat
  | 0, 0 => 0 | 0, 1 => 1 | 0, 2 => 2 | 0, 3 => 3 | 0, 4 => 4 | 0, 5 => 5 | 0, 6 => 6 | 0, 7 => 7 | 0, 8 => 8 | 0, 9 => 9 | 0, 10 => 10 | 0, 11 => 11 | 0, 12 => 12 | 0, 13 => 13 | 0, 14 => 14 | 0, 15 => 15
  | 1, 0 => 14 | 1, 1 => 10 | 1, 2 => 4 | 1, 3 => 8 | 1, 4 => 9 | 1, 5 => 15 | 1, 6 => 13 | 1, 7 => 6 | 1, 8 => 1 | 1, 9 => 12 | 1, 10 => 0 | 1, 11 => 2 | 1, 12 => 11 | 1, 13 => 7 | 1, 14 => 5 | 1, 15 => 3
  | 2, 0 => 11 | 2, 1 => 8 | 2, 2 => 12 | 2, 3 => 0 | 2, 4 => 5 | 2, 5 => 2 | 2, 6 => 15 | 2, 7 => 13 | 2, 8 => 10 | 2, 9 => 14 | 2, 10 => 3 | 2, 11 => 6 | 2, 12 => 7 | 2, 13 => 1 | 2, 14 => 9 | 2, 15 => 4
  | 3, 0 => 7 | 3, 1 => 9 | 3, 2 => 3 | 3, 3 => 1 | 3, 4 => 13 | 3, 5 => 12 | 3, 6 => 11 | 3, 7 => 14 | 3, 8 => 2 | 3, 9 => 6 | 3, 10 => 5 | 3, 11 => 10 | 3, 12 => 4 | 3, 13 => 0 | 3, 14 => 15 | 3, 15 => 8
  | 4, 0 => 9 | 4, 1 => 0 | 4, 2 => 5 | 4, 3 => 7 | 4, 4 => 2 | 4, 5 => 4 | 4, 6 => 10 | 4, 7 => 15 | 4, 8 => 14 | 4, 9 => 1 | 4, 10 => 11 | 4, 11 => 12 | 4, 12 => 6 | 4, 13 => 8 | 4, 14 => 3 | 4, 15 => 13
  | 5, 0 => 2 | 5, 1 => 12 | 5, 2 => 6 | 5, 3 => 10 | 5, 4 => 0 | 5, 5 => 11 | 5, 6 => 8 | 5, 7 => 3 | 5, 8 => 4 | 5, 9 => 13 | 5, 10 => 7 | 5, 11 => 5 | 5, 12 => 15 | 5, 13 => 14 | 5, 14 => 1 | 5, 15 => 9
  | 6, 0 => 12 | 6, 1 => 5 | 6, 2 => 1 | 6, 3 => 15 | 6, 4 => 14 | 6, 5 => 13 | 6, 6 => 4 | 6, 7 => 10 | 6, 8 => 0 | 6, 9 => 7 | 6, 10 => 6 | 6, 11 => 3 | 6, 12 => 9 | 6, 13 => 2 | 6, 14 => 8 | 6, 15 => 11
  | 7, 0 => 13 | 7, 1 => 11 | 7, 2 => 7 | 7, 3 => 14 | 7, 4 => 12 | 7, 5 => 1 | 7, 6 => 3 | 7, 7 => 9 | 7, 8 => 5 | 7, 9 => 0 | 7, 10 => 15 | 7, 11 => 4 | 7, 12 => 8 | 7, 13 => 6 | 7, 14 => 2 | 7, 15 => 10
  | 8, 0 => 6 | 8, 1 => 15 | 8, 2 => 14 | 8, 3 => 9 | 8, 4 => 11 | 8, 5 => 3 | 8, 6 => 0 | 8, 7 => 8 | 8, 8 => 12 | 8, 9 => 2 | 8, 10 => 13 | 8, 11 => 7 | 8, 12 => 1 | 8, 13 => 4 | 8, 14 => 10 | 8, 15 => 5
  | 9, 0 => 10 | 9, 1 => 2 | 9, 2 => 8 | 9, 3 => 4 | 9, 4 => 7 | 9, 5 => 6 | 9, 6 => 1 | 9, 7 => 5 | 9, 8 => 15 | 9, 9 => 11 | 9, 10 => 9 | 9, 11 => 14 | 9, 12 => 3 | 9, 13 => 12 | 9, 14 => 13 | 9, 15 => 0
  | _, _ => 0

/-- `static const vu8 blake2s_vsigma[10]`: row `r` as a byte vector. -/
def blake2s_vsigma (r : Fin 10) : Vu8 :=
  ⟨vsig r.val 0, vsig r.val 1, vsig r.val 2, vsig r.val 3,
   vsig r.val 4, vsig r.val 5, vsig r.val 6, vsig r.val 7,
   vsig r.val 8, vsig r.val 9, vsig r.val 10, vsig r.val 11,
   vsig r.val 12, vsig r.val 13, vsig r.val 14, vsig r.val 15⟩

/-- `blake2s_viv[0]`. -/
def blake2s_viv0 : Vu32 := ⟨0x6a09e667, 0xbb67ae85, 0x3c6ef372, 0xa54ff53a⟩

/-- `blake2s_viv[1]`. -/
def blake2s_viv1 : Vu32 := ⟨0x510e527f, 0x9b05688c, 0x1f83d9ab, 0x5be0cd19⟩

/-!  The message schedule of `blake2s_10rounds` (lines 90–149). -/

/-- Byte slice `k` of the message, after the transposing, byte-reversing
copy loop of lines 94–99: slice `k` holds at position `i` the message byte
`msg[4*i + (3-k)]`, and `mv[k] = vec_ld(16*k, msl)` reads slice `k` back as
one 16-byte vector.  Bytes pass through `u8`, hence the reduction mod 256
(`k` is reduced mod 4 only for totality; all uses have `k < 4`). -/
def mv (msg : Nat → Nat) (k : Nat) : Vu8 :=
  ⟨msg (0 + (3 - k % 4)) % 256, msg (4 + (3 - k % 4)) % 256,
   msg (8 + (3 - k % 4)) % 256, msg (12 + (3 - k % 4)) % 256,
   msg (16 + (3 - k % 4)) % 256, msg (20 + (3 - k % 4)) % 256,
   msg (24 + (3 - k % 4)) % 256, msg (28 + (3 - k % 4)) % 256,
   msg (32 + (3 - k % 4)) % 256, msg (36 + (3 - k % 4)) % 256,
   msg (40 + (3 - k % 4)) % 256, msg (44 + (3 - k % 4)) % 256,
   msg (48 + (3 - k % 4)) % 256, msg (52 + (3 - k % 4)) % 256,
   msg (56 + (3 - k % 4)) % 256, msg (60 + (3 - k % 4)) % 256⟩

/-- The message-schedule part of the C macro `FULLROUND(r)` (lines
126–149): permute each byte slice by `sigma(r)` (rotating the permutation
right by one byte between slices), reassemble the 16 message words with
`SELW`/`vec_sld`, and deal them with `vec_mergeh`/`vec_mergel` into the
four operand vectors `(m1, m2, m3, m4)` for the column and diagonal
applications of G.  The C `vec_perm` calls are applied to the `vu32`
values `mv[k]`, whose byte view is exactly slice `k`; we keep the byte
view through the byte-granular steps and reinterpret with `bytesToWords`
where the word-granular `SELW` begins. -/
def sched (r : Fin 10) (msg : Nat → Nat) : Vu32 × Vu32 × Vu32 × Vu32 :=
  let perm0 := blake2s_vsigma r
  let s1 := vec_perm (mv msg 0) (mv msg 0) perm0
  let perm1 := vec_sld perm0 perm0 15
  let s2 := vec_perm (mv msg 1) (mv msg 1) perm1
  let perm2 := vec_sld perm1 perm1 15
  let s3 := vec_perm (mv msg 2) (mv msg 2) perm2
  let perm3 := vec_sld perm2 perm2 15
  let s4 := vec_perm (mv msg 3) (mv msg 3) perm3
  let w1 := bytesToWords s1
  let w2 := bytesToWords s2
  let w3 := bytesToWords s3
  let w4 := bytesToWords s4
  let ra := SELW w1 w2 w3 w4
  let rc := vec_sldw (SELW w4 w1 w2 w3) (SELW w4 w1 w2 w3) 1
  let rb := vec_sldw (SELW w3 w4 w1 w2) (SELW w3 w4 w1 w2) 2
  let rd := vec_sldw (SELW w2 w3 w4 w1) (SELW w2 w3 w4 w1) 3
  (vec_mergeh ra rb, vec_mergeh rc rd, vec_mergel ra rb, vec_mergel rc rd)

/-- The C macro `BLAKE2S_VG(M,N,a,b,c,d)` (lines 107–117): the vectorized
mixing function, four lanes at once, using `vec_rl` left rotations by
16, 20, 24, 25. -/
def BLAKE2S_VG (M N a b c d : Vu32) : Vu32 × Vu32 × Vu32 × Vu32 :=
  let a := vadd a (vadd b M)
  let d := vrl vr1 (vxor d a)
  let c := vadd c d
  let b := vrl vr2 (vxor b c)
  let a := vadd a (vadd b N)
  let d := vrl vr3 (vxor d a)
  let c := vadd c d
  let b := vrl vr4 (vxor b c)
  (a, b, c, d)

/-- The C macro `FULLROUND(r)` (lines 126–162) on the state
`(va, vb, vc, vd)`: message schedule, G on the columns, diagonalize by
lane rotations (`vec_sld` by 4, 8, 12 bytes), G on the diagonals, undo the
rotations. -/
def FULLROUND (r : Fin 10) (msg : Nat → Nat)
    (s : Vu32 × Vu32 × Vu32 × Vu32) : Vu32 × Vu32 × Vu32 × Vu32 :=
  let m := sched r msg
  let g1 := BLAKE2S_VG m.1 m.2.1 s.1 s.2.1 s.2.2.1 s.2.2.2
  let vb := vec_sldw g1.2.1 g1.2.1 4
  let vc := vec_sldw g1.2.2.1 g1.2.2.1 8
  let vd := vec_sldw g1.2.2.2 g1.2.2.2 12
  let g2 := BLAKE2S_VG m.2.2.1 m.2.2.2 g1.1 vb vc vd
  (g2.1, vec_sldw g2.2.1 g2.2.1 12, vec_sldw g2.2.2.1 g2.2.2.1 8,
    vec_sldw g2.2.2.2 g2.2.2.2 4)

/-- The ten unrolled `FULLROUND(0) … FULLROUND(9)` calls (lines 165–174). -/
def blake2s_rounds (s : Vu32 × Vu32 × Vu32 × Vu32) (msg : Nat → Nat) :
    Vu32 × Vu32 × Vu32 × Vu32 :=
  FULLROUND 9 msg (FULLROUND 8 msg (FULLROUND 7 msg (FULLROUND 6 msg
    (FULLROUND 5 msg (FULLROUND 4 msg (FULLROUND 3 msg (FULLROUND 2 msg
      (FULLROUND 1 msg (FULLROUND 0 msg s)))))))))

/-- `blake2s_10rounds` (lines 49–181): run the ten rounds, then xor the two
state halves together (`va ^= vc; vb ^= vd`) and return just those two
vectors. -/
def blake2s_10rounds (va vb vc vd : Vu32) (msg : Nat → Nat) :
    Vu32 × Vu32 :=
  let s := blake2s_rounds (va, vb, vc, vd) msg
  (vxor s.1 s.2.2.1, vxor s.2.1 s.2.2.2)

/-- The chaining value `H` of the context: 8 words. -/
structure H8 where
  h0 : Nat
  h1 : Nat
  h2 : Nat
  h3 : Nat
  h4 : Nat
  h5 : Nat
  h6 : Nat
  h7 : Nat

/-- `struct blake2s_ctx`: the chaining value `H` (8 words), the byte
counter `t[0], t[1]` and the finalization flags `f[0], f[1]`, with `f`
directly after `t`. -/
structure blake2s_ctx where
  H : H8
  t0 : Nat
  t1 : Nat
  f0 : Nat
  f1 : Nat

/-- The four words `t[0], t[1], f[0], f[1]` picked up by the single 16-byte
load `vec_ld(0, &ctx->t[0])` of line 191 (`f` sits directly after `t` in
the context). -/
def tfWord (ctx : blake2s_ctx) : Vu32 := ⟨ctx.t0, ctx.t1, ctx.f0, ctx.f1⟩

/-- The state loader of `blake2s_compress` (lines 185–193):
`va = H[0..4)`, `vb = H[4..8)`, `vc = IV[0..4)`,
`vd = IV[4..8) ^ (t0, t1, f0, f1)`. -/
def blake2s_load (ctx : blake2s_ctx) : Vu32 × Vu32 × Vu32 × Vu32 :=
  (⟨ctx.H.h0, ctx.H.h1, ctx.H.h2, ctx.H.h3⟩,
   ⟨ctx.H.h4, ctx.H.h5, ctx.H.h6, ctx.H.h7⟩,
   blake2s_viv0,
   vxor blake2s_viv1 (tfWord ctx))

/-- `blake2s_compress` (lines 183–203): load the state, run
`blake2s_10rounds`, xor the returned two vectors into `H` and store them
back; only `ctx->H` is written. -/
def blake2s_compress (ctx : blake2s_ctx) (m : Nat → Nat) : blake2s_ctx :=
  let s := blake2s_load ctx
  let r := blake2s_10rounds s.1 s.2.1 s.2.2.1 s.2.2.2 m
  let newH : H8 :=
    ⟨xor32 ctx.H.h0 r.1.w0, xor32 ctx.H.h1 r.1.w1,
     xor32 ctx.H.h2 r.1.w2, xor32 ctx.H.h3 r.1.w3,
     xor32 ctx.H.h4 r.2.w0, xor32 ctx.H.h5 r.2.w1,
     xor32 ctx.H.h6 r.2.w2, xor32 ctx.H.h7 r.2.w3⟩
  { ctx with H := newH }

/-!
The scalar reference pipeline, written from the specification: the
16-word working state `v`, the little-endian reading of the block, the
eight-step ARX mixing function G with right rotations 16, 12, 8, 7, G on
the four columns then on the four diagonals per round, ten rounds, and the
finalizer `H[i] ^= v[i] ^ v[i+8]`.
-/

/-- Modelled from the spec: the RFC 7693 BLAKE2s sigma schedule (row index
first); out-of-range indices give 0. -/
def rfc_sigma : Nat → Nat → Nat
  | 0, 0 => 0 | 0, 1 => 1 | 0, 2 => 2 | 0, 3 => 3 | 0, 4 => 4 | 0, 5 => 5 | 0, 6 => 6 | 0, 7 => 7 | 0, 8 => 8 | 0, 9 => 9 | 0, 10 => 10 | 0, 11 => 11 | 0, 12 => 12 | 0, 13 => 13 | 0, 14 => 14 | 0, 15 => 15
  | 1, 0 => 14 | 1, 1 => 10 | 1, 2 => 4 | 1, 3 => 8 | 1, 4 => 9 | 1, 5 => 15 | 1, 6 => 13 | 1, 7 => 6 | 1, 8 => 1 | 1, 9 => 12 | 1, 10 => 0 | 1, 11 => 2 | 1, 12 => 11 | 1, 13 => 7 | 1, 14 => 5 | 1, 15 => 3
  | 2, 0 => 11 | 2, 1 => 8 | 2, 2 => 12 | 2, 3 => 0 | 2, 4 => 5 | 2, 5 => 2 | 2, 6 => 15 | 2, 7 => 13 | 2, 8 => 10 | 2, 9 => 14 | 2, 10 => 3 | 2, 11 => 6 | 2, 12 => 7 | 2, 13 => 1 | 2, 14 => 9 | 2, 15 => 4
  | 3, 0 => 7 | 3, 1 => 9 | 3, 2 => 3 | 3, 3 => 1 | 3, 4 => 13 | 3, 5 => 12 | 3, 6 => 11 | 3, 7 => 14 | 3, 8 => 2 | 3, 9 => 6 | 3, 10 => 5 | 3, 11 => 10 | 3, 12 => 4 | 3, 13 => 0 | 3, 14 => 15 | 3, 15 => 8
  | 4, 0 => 9 | 4, 1 => 0 | 4, 2 => 5 | 4, 3 => 7 | 4, 4 => 2 | 4, 5 => 4 | 4, 6 => 10 | 4, 7 => 15 | 4, 8 => 14 | 4, 9 => 1 | 4, 10 => 11 | 4, 11 => 12 | 4, 12 => 6 | 4, 13 => 8 | 4, 14 => 3 | 4, 15 => 13
  | 5, 0 => 2 | 5, 1 => 12 | 5, 2 => 6 | 5, 3 => 10 | 5, 4 => 0 | 5, 5 => 11 | 5, 6 => 8 | 5, 7 => 3 | 5, 8 => 4 | 5, 9 => 13 | 5, 10 => 7 | 5, 11 => 5 | 5, 12 => 15 | 5, 13 => 14 | 5, 14 => 1 | 5, 15 => 9
  | 6, 0 => 12 | 6, 1 => 5 | 6, 2 => 1 | 6, 3 => 15 | 6, 4 => 14 | 6, 5 => 13 | 6, 6 => 4 | 6, 7 => 10 | 6, 8 => 0 | 6, 9 => 7 | 6, 10 => 6 | 6, 11 => 3 | 6, 12 => 9 | 6, 13 => 2 | 6, 14 => 8 | 6, 15 => 11
  | 7, 0 => 13 | 7, 1 => 11 | 7, 2 => 7 | 7, 3 => 14 | 7, 4 => 12 | 7, 5 => 1 | 7, 6 => 3 | 7, 7 => 9 | 7, 8 => 5 | 7, 9 => 0 | 7, 10 => 15 | 7, 11 => 4 | 7, 12 => 8 | 7, 13 => 6 | 7, 14 => 2 | 7, 15 => 10
  | 8, 0 => 6 | 8, 1 => 15 | 8, 2 => 14 | 8, 3 => 9 | 8, 4 => 11 | 8, 5 => 3 | 8, 6 => 0 | 8, 7 => 8 | 8, 8 => 12 | 8, 9 => 2 | 8, 10 => 13 | 8, 11 => 7 | 8, 12 => 1 | 8, 13 => 4 | 8, 14 => 10 | 8, 15 => 5
  | 9, 0 => 10 | 9, 1 => 2 | 9, 2 => 8 | 9, 3 => 4 | 9, 4 => 7 | 9, 5 => 6 | 9, 6 => 1 | 9, 7 => 5 | 9, 8 => 15 | 9, 9 => 11 | 9, 10 => 9 | 9, 11 => 14 | 9, 12 => 3 | 9, 13 => 12 | 9, 14 => 13 | 9, 15 => 0
  | _, _ => 0

/-- Modelled from the spec: the 8 fixed BLAKE2s initialization-vector
constants. -/
def IVfn : Nat → Nat
  | 0 => 0x6a09e667 | 1 => 0xbb67ae85 | 2 => 0x3c6ef372 | 3 => 0xa54ff53a
  | 4 => 0x510e527f | 5 => 0x9b05688c | 6 => 0x1f83d9ab | 7 => 0x5be0cd19
  | _ => 0

/-- Build an index into the 16-word state (all uses have `n < 16`; the
`% 16` only makes this total). -/
def f16 (n : Nat) : Fin 16 := ⟨n % 16, Nat.mod_lt _ (by omega)⟩

/-- The sigma entry `sigma[r][k]` of the code's table, as an index into the
16 message words. -/
def sidx (r : Fin 10) (k : Fin 16) : Fin 16 := f16 (vsig r.val k.val)

/-- The naive little-endian reading of the block: message word `i` occupies
block bytes `[4*i, 4*i+4)`, least significant byte first. -/
def mWord (msg : Nat → Nat) (i : Fin 16) : Nat :=
  msg (4 * i.val) % 256 + (msg (4 * i.val + 1) % 256) * 256 +
    (msg (4 * i.val + 2) % 256) * 65536 +
    (msg (4 * i.val + 3) % 256) * 16777216

/-- Modelled from the spec (§4.3): the mixing function G on one quadruple
`(a, b, c, d)` with message words `m`, `n`: eight ARX steps with wrapping
additions and right rotations by 16, 12, 8, 7. -/
def specG (m n : Nat) (q : Nat × Nat × Nat × Nat) : Nat × Nat × Nat × Nat :=
  let a := q.1
  let b := q.2.1
  let c := q.2.2.1
  let d := q.2.2.2
  let a := add32 a (add32 b m)
  let d := rotr32 (xor32 d a) 16
  let c := add32 c d
  let b := rotr32 (xor32 b c) 12
  let a := add32 a (add32 b n)
  let d := rotr32 (xor32 d a) 8
  let c := add32 c d
  let b := rotr32 (xor32 b c) 7
  (a, b, c, d)

/-- Apply G to the state entries at positions `p0, p1, p2, p3`, leaving the
rest of the 16-word state unchanged. -/
def applyG (v : Fin 16 → Nat) (p0 p1 p2 p3 : Fin 16) (m n : Nat) :
    Fin 16 → Nat :=
  let q := specG m n (v p0, v p1, v p2, v p3)
  fun i =>
    if i.val = p0.val then q.1
    else if i.val = p1.val then q.2.1
    else if i.val = p2.val then q.2.2.1
    else if i.val = p3.val then q.2.2.2
    else v i

/-- Modelled from the spec (§4.2, §4.3): one scalar round — G on the four
column quadruples with message pairs `sigma[r][0..8)`, then G on the four
diagonal quadruples with message pairs `sigma[r][8..16)`. -/
def specRound (r : Fin 10) (msg : Nat → Nat) (v : Fin 16 → Nat) :
    Fin 16 → Nat :=
  let m : Fin 16 → Nat := fun k => mWord msg (sidx r k)
  let v0 := applyG v (f16 0) (f16 4) (f16 8) (f16 12) (m (f16 0)) (m (f16 1))
  let v1 := applyG v0 (f16 1) (f16 5) (f16 9) (f16 13) (m (f16 2)) (m (f16 3))
  let v2 := applyG v1 (f16 2) (f16 6) (f16 10) (f16 14) (m (f16 4)) (m (f16 5))
  let v3 := applyG v2 (f16 3) (f16 7) (f16 11) (f16 15) (m (f16 6)) (m (f16 7))
  let v4 := applyG v3 (f16 0) (f16 5) (f16 10) (f16 15) (m (f16 8)) (m (f16 9))
  let v5 := applyG v4 (f16 1) (f16 6) (f16 11) (f16 12) (m (f16 10)) (m (f16 11))
  let v6 := applyG v5 (f16 2) (f16 7) (f16 8) (f16 13) (m (f16 12)) (m (f16 13))
  applyG v6 (f16 3) (f16 4) (f16 9) (f16 14) (m (f16 14)) (m (f16 15))

/-- The ten scalar rounds in sequence. -/
def specRounds (msg : Nat → Nat) (v : Fin 16 → Nat) : Fin 16 → Nat :=
  specRound 9 msg (specRound 8 msg (specRound 7 msg (specRound 6 msg
    (specRound 5 msg (specRound 4 msg (specRound 3 msg (specRound 2 msg
      (specRound 1 msg (specRound 0 msg v)))))))))

/-- Chaining-value word `n` of `H` (0 for `n > 7`, which no use reads). -/
def Hsel (H : H8) (n : Nat) : Nat :=
  if n = 0 then H.h0 else if n = 1 then H.h1 else if n = 2 then H.h2
  else if n = 3 then H.h3 else if n = 4 then H.h4 else if n = 5 then H.h5
  else if n = 6 then H.h6 else if n = 7 then H.h7 else 0

/-- Word `n` of the counter-and-flags quadruple `t0, t1, f0, f1`. -/
def tfsel (ctx : blake2s_ctx) (n : Nat) : Nat :=
  if n = 0 then ctx.t0 else if n = 1 then ctx.t1
  else if n = 2 then ctx.f0 else ctx.f1

/-- Modelled from the spec (§4.1): the scalar working state
`v[0..8) = H`, `v[8..12) = IV[0..4)`,
`v[12..16) = IV[4..8) xor (t0, t1, f0, f1)`. -/
def specLoad (ctx : blake2s_ctx) : Fin 16 → Nat := fun i =>
  if i.val < 8 then Hsel ctx.H i.val
  else if i.val < 12 then IVfn (i.val - 8)
  else xor32 (IVfn (i.val - 8)) (tfsel ctx (i.val - 12))

/-- Modelled from the spec (§4.1–§4.4): the whole scalar compression —
load, ten rounds, finalizer `H[i] ^= v[i] ^ v[i+8]`. -/
def blake2s_compress_spec (ctx : blake2s_ctx) (m : Nat → Nat) :
    blake2s_ctx :=
  let v := specRounds m (specLoad ctx)
  let newH : H8 :=
    ⟨xor32 ctx.H.h0 (xor32 (v (f16 0)) (v (f16 8))),
     xor32 ctx.H.h1 (xor32 (v (f16 1)) (v (f16 9))),
     xor32 ctx.H.h2 (xor32 (v (f16 2)) (v (f16 10))),
     xor32 ctx.H.h3 (xor32 (v (f16 3)) (v (f16 11))),
     xor32 ctx.H.h4 (xor32 (v (f16 4)) (v (f16 12))),
     xor32 ctx.H.h5 (xor32 (v (f16 5)) (v (f16 13))),
     xor32 ctx.H.h6 (xor32 (v (f16 6)) (v (f16 14))),
     xor32 ctx.H.h7 (xor32 (v (f16 7)) (v (f16 15)))⟩
  { ctx with H := newH }

/-- The lane-to-scalar-state correspondence: scalar word `i` of the 4x4
state lives in vector `i / 4`, lane `i mod 4` (`va` holds `v[0..4)`, `vb`
holds `v[4..8)`, `vc` holds `v[8..12)`, `vd` holds `v[12..16)`). -/
def corr (s : Vu32 × Vu32 × Vu32 × Vu32) : Fin 16 → Nat := fun i =>
  if i.val = 0 then s.1.w0 else if i.val = 1 then s.1.w1
  else if i.val = 2 then s.1.w2 else if i.val = 3 then s.1.w3
  else if i.val = 4 then s.2.1.w0 else if i.val = 5 then s.2.1.w1
  else if i.val = 6 then s.2.1.w2 else if i.val = 7 then s.2.1.w3
  else if i.val = 8 then s.2.2.1.w0 else if i.val = 9 then s.2.2.1.w1
  else if i.val = 10 then s.2.2.1.w2 else if i.val = 11 then s.2.2.1.w3
  else if i.val = 12 then s.2.2.2.w0 else if i.val = 13 then s.2.2.2.w1
  else if i.val = 14 then s.2.2.2.w2 else s.2.2.2.w3

/-!  Arithmetic facts about the word primitives. -/

theorem mod256_mod256 (x : Nat) : x % 256 % 256 = x % 256 := by omega

theorem add32_lt (a b : Nat) : add32 a b < w32 := by
  unfold add32 w32; omega

theorem add32_mod_self (a b : Nat) : add32 a b % w32 = add32 a b := by
  unfold add32 w32; omega

theorem add32_mod_left (a b : Nat) : add32 (a % w32) b = add32 a b := by
  unfold add32 w32; omega

theorem add32_mod_right (a b : Nat) : add32 a (b % w32) = add32 a b := by
  unfold add32 w32; omega

theorem xor32_mod_left (a b : Nat) : xor32 (a % w32) b = xor32 a b := by
  unfold xor32
  have h : a % w32 % w32 = a % w32 := by unfold w32; omega
  rw [h]

theorem xor32_mod_right (a b : Nat) : xor32 a (b % w32) = xor32 a b := by
  unfold xor32
  have h : b % w32 % w32 = b % w32 := by unfold w32; omega
  rw [h]

theorem xor32_lt (a b : Nat) : xor32 a b < w32 := by
  unfold xor32 w32
  have h := Nat.xor_lt_two_pow (x := a % 4294967296) (y := b % 4294967296)
    (n := 32) (by omega) (by omega)
  omega

theorem xor32_mod_self (a b : Nat) : xor32 a b % w32 = xor32 a b :=
  Nat.mod_eq_of_lt (xor32_lt a b)

theorem rotl32_lt (x n : Nat) : rotl32 x n < w32 := by
  unfold rotl32 w32
  have h1 : ((x % 4294967296) <<< (n % 32)) % 4294967296 < 2 ^ 32 := by omega
  have h2 : (x % 4294967296) >>> (32 - n % 32) < 2 ^ 32 := by
    rw [Nat.shiftRight_eq_div_pow]
    exact Nat.lt_of_le_of_lt (Nat.div_le_self _ _) (by omega)
  have h3 := Nat.or_lt_two_pow h1 h2
  omega

theorem rotl32_mod_self (x n : Nat) : rotl32 x n % w32 = rotl32 x n :=
  Nat.mod_eq_of_lt (rotl32_lt x n)

theorem rotl32_mod_left (x n : Nat) : rotl32 (x % w32) n = rotl32 x n := by
  unfold rotl32
  have h : x % w32 % w32 = x % w32 := by unfold w32; omega
  rw [h]

theorem rotr32_lt (x n : Nat) : rotr32 x n < w32 := by
  unfold rotr32 w32
  have h1 : (x % 4294967296) >>> (n % 32) < 2 ^ 32 := by
    rw [Nat.shiftRight_eq_div_pow]
    exact Nat.lt_of_le_of_lt (Nat.div_le_self _ _) (by omega)
  have h2 : ((x % 4294967296) <<< (32 - n % 32)) % 4294967296 < 2 ^ 32 := by omega
  have h3 := Nat.or_lt_two_pow h1 h2
  omega

theorem rotr32_mod_self (x n : Nat) : rotr32 x n % w32 = rotr32 x n :=
  Nat.mod_eq_of_lt (rotr32_lt x n)

/-- The code rotates left by 16 where the algorithm rotates right by 16. -/
theorem rotl32_16 (x : Nat) : rotl32 x 16 = rotr32 x 16 := by
  unfold rotl32 rotr32
  norm_num
  exact Nat.lor_comm _ _

/-- The code rotates left by 20 where the algorithm rotates right by 12. -/
theorem rotl32_20 (x : Nat) : rotl32 x 20 = rotr32 x 12 := by
  unfold rotl32 rotr32
  norm_num
  exact Nat.lor_comm _ _

/-- The code rotates left by 24 where the algorithm rotates right by 8. -/
theorem rotl32_24 (x : Nat) : rotl32 x 24 = rotr32 x 8 := by
  unfold rotl32 rotr32
  norm_num
  exact Nat.lor_comm _ _

/-- The code rotates left by 25 where the algorithm rotates right by 7. -/
theorem rotl32_25 (x : Nat) : rotl32 x 25 = rotr32 x 7 := by
  unfold rotl32 rotr32
  norm_num
  exact Nat.lor_comm _ _

/-!  Byte-slicing facts: how the masked selects of `SELW` and the
byte-shift reinterpretations act on words assembled from bytes. -/

theorem ofBytes_peel (b0 b1 b2 b3 : Nat) :
    ofBytes b0 b1 b2 b3 =
      2 ^ 8 * (2 ^ 8 * (2 ^ 8 * (b0 % 256) + b1 % 256) + b2 % 256) + b3 % 256 := by
  unfold ofBytes; ring

theorem testBit_ofBytes (b0 b1 b2 b3 j : Nat) :
    (ofBytes b0 b1 b2 b3).testBit j =
      if j < 8 then (b3 % 256).testBit j
      else if j < 16 then (b2 % 256).testBit (j - 8)
      else if j < 24 then (b1 % 256).testBit (j - 16)
      else (b0 % 256).testBit (j - 24) := by
  rw [ofBytes_peel]
  rw [Nat.testBit_mul_pow_two_add _ (show b3 % 256 < 2 ^ 8 by omega)]
  by_cases h1 : j < 8
  · simp [h1]
  · simp only [h1, if_false]
    rw [Nat.testBit_mul_pow_two_add _ (show b2 % 256 < 2 ^ 8 by omega)]
    by_cases h2 : j < 16
    · have hx : j - 8 < 8 := by omega
      simp only [hx, if_true, h2]
    · have hx : ¬(j - 8 < 8) := by omega
      simp only [hx, if_false, h2]
      rw [Nat.testBit_mul_pow_two_add _ (show b1 % 256 < 2 ^ 8 by omega)]
      by_cases h3 : j < 24
      · have hy : j - 8 - 8 < 8 := by omega
        simp only [hy, if_true, h3]
        congr 1
      · have hy : ¬(j - 8 - 8 < 8) := by omega
        simp only [hy, if_false, h3]
        congr 1

theorem testBit_255 (j : Nat) : (255 : Nat).testBit j = decide (j < 8) := by
  rw [show (255 : Nat) = 2 ^ 8 - 1 from by norm_num, Nat.testBit_two_pow_sub_one]

theorem testBit_ffffffff (j : Nat) :
    (0xffffffff : Nat).testBit j = decide (j < 32) := by
  rw [show (0xffffffff : Nat) = 2 ^ 32 - 1 from by norm_num,
    Nat.testBit_two_pow_sub_one]

theorem testBit_maskA (j : Nat) :
    (0xff000000 : Nat).testBit j = decide (24 ≤ j ∧ j < 32) := by
  rw [show (0xff000000 : Nat) = 2 ^ 24 * 255 + 0 from by norm_num,
    Nat.testBit_mul_pow_two_add _ (show (0 : Nat) < 2 ^ 24 by positivity)]
  by_cases hj : j < 24
  · simp [hj, Nat.zero_testBit, show ¬(24 ≤ j ∧ j < 32) from by omega]
  · simp only [hj, if_false, testBit_255, decide_eq_decide]
    omega

theorem testBit_maskB (j : Nat) :
    (0x00ff0000 : Nat).testBit j = decide (16 ≤ j ∧ j < 24) := by
  rw [show (0x00ff0000 : Nat) = 2 ^ 16 * 255 + 0 from by norm_num,
    Nat.testBit_mul_pow_two_add _ (show (0 : Nat) < 2 ^ 16 by positivity)]
  by_cases hj : j < 16
  · simp [hj, Nat.zero_testBit, show ¬(16 ≤ j ∧ j < 24) from by omega]
  · simp only [hj, if_false, testBit_255, decide_eq_decide]
    omega

theorem testBit_maskC (j : Nat) :
    (0x0000ff00 : Nat).testBit j = decide (8 ≤ j ∧ j < 16) := by
  rw [show (0x0000ff00 : Nat) = 2 ^ 8 * 255 + 0 from by norm_num,
    Nat.testBit_mul_pow_two_add _ (show (0 : Nat) < 2 ^ 8 by positivity)]
  by_cases hj : j < 8
  · simp [hj, Nat.zero_testBit, show ¬(8 ≤ j ∧ j < 16) from by omega]
  · simp only [hj, if_false, testBit_255, decide_eq_decide]
    omega

theorem testBit_maskD (j : Nat) :
    (0x000000ff : Nat).testBit j = decide (j < 8) := testBit_255 j

/-- A byte has no bits at positions 8 and above. -/
theorem testBit_mod256_high (x j : Nat) (h : 8 ≤ j) :
    (x % 256).testBit j = false := by
  apply Nat.testBit_eq_false_of_lt
  calc x % 256 < 256 := by omega
    _ ≤ 2 ^ j := by
      calc (256 : Nat) = 2 ^ 8 := by norm_num
      _ ≤ 2 ^ j := Nat.pow_le_pow_right (by omega) h

/-- One lane of the C macro `SELW` on words assembled from bytes: it
selects byte 0 of `x`, byte 1 of `y`, byte 2 of `z`, byte 3 of `w`. -/
theorem selw_word (a0 a1 a2 a3 b0 b1 b2 b3 c0 c1 c2 c3 d0 d1 d2 d3 : Nat) :
    ((ofBytes a0 a1 a2 a3 &&& 0xff000000) &&& (0xffffffff ^^^ 0x00ff0000) |||
      ofBytes b0 b1 b2 b3 &&& 0x00ff0000) |||
    ((ofBytes c0 c1 c2 c3 &&& 0x0000ff00) &&& (0xffffffff ^^^ 0x000000ff) |||
      ofBytes d0 d1 d2 d3 &&& 0x000000ff)
    = ofBytes a0 b1 c2 d3 := by
  apply Nat.eq_of_testBit_eq
  intro j
  simp only [Nat.testBit_lor, Nat.testBit_land, Nat.testBit_xor,
    testBit_ofBytes, testBit_maskA, testBit_maskB, testBit_maskC,
    testBit_maskD, testBit_ffffffff]
  by_cases h1 : j < 8
  · simp [h1, show j < 32 from by omega, show ¬(24 ≤ j) from by omega,
      show ¬(16 ≤ j) from by omega, show ¬(8 ≤ j) from by omega]
  · by_cases h2 : j < 16
    · simp [h1, h2, show j < 32 from by omega, show ¬(24 ≤ j) from by omega,
        show ¬(16 ≤ j) from by omega, show 8 ≤ j from by omega]
    · by_cases h3 : j < 24
      · simp [h1, h2, h3, show j < 32 from by omega,
          show ¬(24 ≤ j) from by omega, show 16 ≤ j from by omega,
          show 8 ≤ j from by omega]
      · by_cases h4 : j < 32
        · simp [h1, h2, h3, h4, show 24 ≤ j from by omega,
            show 16 ≤ j from by omega, show 8 ≤ j from by omega]
        · simp [h1, h2, h3, h4, show 24 ≤ j from by omega,
            show 16 ≤ j from by omega, show 8 ≤ j from by omega,
            testBit_mod256_high _ _ (show 8 ≤ j - 24 from by omega)]

/-- `SELW` on four byte-assembled vectors gathers, per word, byte 0 from
the first, byte 1 from the second, byte 2 from the third and byte 3 from
the fourth. -/
theorem SELW_bytesToWords (p q u v : Vu8) :
    SELW (bytesToWords p) (bytesToWords q) (bytesToWords u) (bytesToWords v) =
      bytesToWords ⟨p.b0, q.b1, u.b2, v.b3, p.b4, q.b5, u.b6, v.b7,
        p.b8, q.b9, u.b10, v.b11, p.b12, q.b13, u.b14, v.b15⟩ := by
  unfold SELW vec_sel vand vor bytesToWords mask_1 mask_2 mask_3 mask_4
  simp only [Vu32.mk.injEq]
  exact ⟨selw_word _ _ _ _ _ _ _ _ _ _ _ _ _ _ _ _,
    selw_word _ _ _ _ _ _ _ _ _ _ _ _ _ _ _ _,
    selw_word _ _ _ _ _ _ _ _ _ _ _ _ _ _ _ _,
    selw_word _ _ _ _ _ _ _ _ _ _ _ _ _ _ _ _⟩

theorem ofBytes_sr24 (b0 b1 b2 b3 : Nat) :
    (ofBytes b0 b1 b2 b3 >>> 24) % 256 = b0 % 256 := by
  unfold ofBytes; rw [Nat.shiftRight_eq_div_pow]; omega

theorem ofBytes_sr16 (b0 b1 b2 b3 : Nat) :
    (ofBytes b0 b1 b2 b3 >>> 16) % 256 = b1 % 256 := by
  unfold ofBytes; rw [Nat.shiftRight_eq_div_pow]; omega

theorem ofBytes_sr8 (b0 b1 b2 b3 : Nat) :
    (ofBytes b0 b1 b2 b3 >>> 8) % 256 = b2 % 256 := by
  unfold ofBytes; rw [Nat.shiftRight_eq_div_pow]; omega

theorem ofBytes_mod256 (b0 b1 b2 b3 : Nat) :
    ofBytes b0 b1 b2 b3 % 256 = b3 % 256 := by
  unfold ofBytes; omega

/-- Reading a byte-assembled register back as bytes recovers the bytes
(reduced mod 256). -/
theorem wordsToBytes_bytesToWords (b : Vu8) :
    wordsToBytes (bytesToWords b) =
      ⟨b.b0 % 256, b.b1 % 256, b.b2 % 256, b.b3 % 256,
       b.b4 % 256, b.b5 % 256, b.b6 % 256, b.b7 % 256,
       b.b8 % 256, b.b9 % 256, b.b10 % 256, b.b11 % 256,
       b.b12 % 256, b.b13 % 256, b.b14 % 256, b.b15 % 256⟩ := by
  show wordsToBytes ⟨ofBytes b.b0 b.b1 b.b2 b.b3, ofBytes b.b4 b.b5 b.b6 b.b7,
    ofBytes b.b8 b.b9 b.b10 b.b11, ofBytes b.b12 b.b13 b.b14 b.b15⟩ = _
  unfold wordsToBytes
  simp only [Vu8.mk.injEq]
  exact ⟨ofBytes_sr24 _ _ _ _, ofBytes_sr16 _ _ _ _, ofBytes_sr8 _ _ _ _,
    ofBytes_mod256 _ _ _ _, ofBytes_sr24 _ _ _ _, ofBytes_sr16 _ _ _ _,
    ofBytes_sr8 _ _ _ _, ofBytes_mod256 _ _ _ _, ofBytes_sr24 _ _ _ _,
    ofBytes_sr16 _ _ _ _, ofBytes_sr8 _ _ _ _, ofBytes_mod256 _ _ _ _,
    ofBytes_sr24 _ _ _ _, ofBytes_sr16 _ _ _ _, ofBytes_sr8 _ _ _ _,
    ofBytes_mod256 _ _ _ _⟩

/-- `vec_sld` at word type applied to a byte-assembled register shifts the
underlying bytes. -/
theorem vec_sldw_btw (b : Vu8) (z : Nat) :
    vec_sldw (bytesToWords b) (bytesToWords b) z =
      bytesToWords (vec_sld
        ⟨b.b0 % 256, b.b1 % 256, b.b2 % 256, b.b3 % 256,
         b.b4 % 256, b.b5 % 256, b.b6 % 256, b.b7 % 256,
         b.b8 % 256, b.b9 % 256, b.b10 % 256, b.b11 % 256,
         b.b12 % 256, b.b13 % 256, b.b14 % 256, b.b15 % 256⟩
        ⟨b.b0 % 256, b.b1 % 256, b.b2 % 256, b.b3 % 256,
         b.b4 % 256, b.b5 % 256, b.b6 % 256, b.b7 % 256,
         b.b8 % 256, b.b9 % 256, b.b10 % 256, b.b11 % 256,
         b.b12 % 256, b.b13 % 256, b.b14 % 256, b.b15 % 256⟩ z) := by
  unfold vec_sldw
  rw [wordsToBytes_bytesToWords]

/-- Splitting a word into its four bytes and reassembling gives the word
reduced mod `2^32`. -/
theorem ofBytes_split (a : Nat) :
    ofBytes ((a >>> 24) % 256) ((a >>> 16) % 256) ((a >>> 8) % 256) (a % 256) =
      a % w32 := by
  unfold ofBytes w32
  rw [Nat.shiftRight_eq_div_pow, Nat.shiftRight_eq_div_pow,
    Nat.shiftRight_eq_div_pow]
  omega

/-- `vec_sld(x, x, 4)` on a word vector rotates the lanes left by one. -/
theorem vec_sldw4 (x : Vu32) :
    vec_sldw x x 4 = ⟨x.w1 % w32, x.w2 % w32, x.w3 % w32, x.w0 % w32⟩ := by
  unfold vec_sldw wordsToBytes vec_sld concatByte bytesToWords
  norm_num
  exact ⟨ofBytes_split _, ofBytes_split _, ofBytes_split _, ofBytes_split _⟩

/-- `vec_sld(x, x, 8)` on a word vector rotates the lanes left by two. -/
theorem vec_sldw8 (x : Vu32) :
    vec_sldw x x 8 = ⟨x.w2 % w32, x.w3 % w32, x.w0 % w32, x.w1 % w32⟩ := by
  unfold vec_sldw wordsToBytes vec_sld concatByte bytesToWords
  norm_num
  exact ⟨ofBytes_split _, ofBytes_split _, ofBytes_split _, ofBytes_split _⟩

/-- `vec_sld(x, x, 12)` on a word vector rotates the lanes left by three. -/
theorem vec_sldw12 (x : Vu32) :
    vec_sldw x x 12 = ⟨x.w3 % w32, x.w0 % w32, x.w1 % w32, x.w2 % w32⟩ := by
  unfold vec_sldw wordsToBytes vec_sld concatByte bytesToWords
  norm_num
  exact ⟨ofBytes_split _, ofBytes_split _, ofBytes_split _, ofBytes_split _⟩

theorem f16_val (n : Nat) : (f16 n).val = n % 16 := rfl

set_option maxHeartbeats 1600000 in
/-- Round 0 of the vectorized message schedule delivers exactly the
sigma-selected little-endian message words. -/
theorem sched_eq0 (msg : Nat → Nat) :
    sched 0 msg =
      (⟨mWord msg (f16 0), mWord msg (f16 2), mWord msg (f16 4), mWord msg (f16 6)⟩,
       ⟨mWord msg (f16 1), mWord msg (f16 3), mWord msg (f16 5), mWord msg (f16 7)⟩,
       ⟨mWord msg (f16 8), mWord msg (f16 10), mWord msg (f16 12), mWord msg (f16 14)⟩,
       ⟨mWord msg (f16 9), mWord msg (f16 11), mWord msg (f16 13), mWord msg (f16 15)⟩) := by
  have hv : blake2s_vsigma 0 = (⟨0, 1, 2, 3, 4, 5, 6, 7, 8, 9, 10, 11, 12, 13, 14, 15⟩ : Vu8) := rfl
  have hp1 : vec_sld (⟨0, 1, 2, 3, 4, 5, 6, 7, 8, 9, 10, 11, 12, 13, 14, 15⟩ : Vu8) ⟨0, 1, 2, 3, 4, 5, 6, 7, 8, 9, 10, 11, 12, 13, 14, 15⟩ 15 = ⟨15, 0, 1, 2, 3, 4, 5, 6, 7, 8, 9, 10, 11, 12, 13, 14⟩ := rfl
  have hp2 : vec_sld (⟨15, 0, 1, 2, 3, 4, 5, 6, 7, 8, 9, 10, 11, 12, 13, 14⟩ : Vu8) ⟨15, 0, 1, 2, 3, 4, 5, 6, 7, 8, 9, 10, 11, 12, 13, 14⟩ 15 = ⟨14, 15, 0, 1, 2, 3, 4, 5, 6, 7, 8, 9, 10, 11, 12, 13⟩ := rfl
  have hp3 : vec_sld (⟨14, 15, 0, 1, 2, 3, 4, 5, 6, 7, 8, 9, 10, 11, 12, 13⟩ : Vu8) ⟨14, 15, 0, 1, 2, 3, 4, 5, 6, 7, 8, 9, 10, 11, 12, 13⟩ 15 = ⟨13, 14, 15, 0, 1, 2, 3, 4, 5, 6, 7, 8, 9, 10, 11, 12⟩ := rfl
  simp only [sched]
  rw [hv, hp1, hp2, hp3]
  rw [SELW_bytesToWords, SELW_bytesToWords, SELW_bytesToWords,
    SELW_bytesToWords]
  rw [vec_sldw_btw, vec_sldw_btw, vec_sldw_btw]
  dsimp only [vec_perm, mv, vec_sld, concatByte, bytesToWords, vec_mergeh,
    vec_mergel, Nat.reduceMod, Nat.reduceAdd, Nat.reduceSub, reduceIte,
    Nat.reduceEqDiff]
  simp only [concatByte, reduceIte, Nat.reduceEqDiff, mWord, f16_val,
    Nat.reduceMod, Nat.reduceAdd, Nat.reduceSub, Nat.reduceMul,
    Prod.mk.injEq, Vu32.mk.injEq, ofBytes, mod256_mod256]
  and_intros <;> ring

set_option maxHeartbeats 1600000 in
/-- Round 1 of the vectorized message schedule delivers exactly the
sigma-selected little-endian message words. -/
theorem sched_eq1 (msg : Nat → Nat) :
    sched 1 msg =
      (⟨mWord msg (f16 14), mWord msg (f16 4), mWord msg (f16 9), mWord msg (f16 13)⟩,
       ⟨mWord msg (f16 10), mWord msg (f16 8), mWord msg (f16 15), mWord msg (f16 6)⟩,
       ⟨mWord msg (f16 1), mWord msg (f16 0), mWord msg (f16 11), mWord msg (f16 5)⟩,
       ⟨mWord msg (f16 12), mWord msg (f16 2), mWord msg (f16 7), mWord msg (f16 3)⟩) := by
  have hv : blake2s_vsigma 1 = (⟨14, 10, 4, 8, 9, 15, 13, 6, 1, 12, 0, 2, 11, 7, 5, 3⟩ : Vu8) := rfl
  have hp1 : vec_sld (⟨14, 10, 4, 8, 9, 15, 13, 6, 1, 12, 0, 2, 11, 7, 5, 3⟩ : Vu8) ⟨14, 10, 4, 8, 9, 15, 13, 6, 1, 12, 0, 2, 11, 7, 5, 3⟩ 15 = ⟨3, 14, 10, 4, 8, 9, 15, 13, 6, 1, 12, 0, 2, 11, 7, 5⟩ := rfl
  have hp2 : vec_sld (⟨3, 14, 10, 4, 8, 9, 15, 13, 6, 1, 12, 0, 2, 11, 7, 5⟩ : Vu8) ⟨3, 14, 10, 4, 8, 9, 15, 13, 6, 1, 12, 0, 2, 11, 7, 5⟩ 15 = ⟨5, 3, 14, 10, 4, 8, 9, 15, 13, 6, 1, 12, 0, 2, 11, 7⟩ := rfl
  have hp3 : vec_sld (⟨5, 3, 14, 10, 4, 8, 9, 15, 13, 6, 1, 12, 0, 2, 11, 7⟩ : Vu8) ⟨5, 3, 14, 10, 4, 8, 9, 15, 13, 6, 1, 12, 0, 2, 11, 7⟩ 15 = ⟨7, 5, 3, 14, 10, 4, 8, 9, 15, 13, 6, 1, 12, 0, 2, 11⟩ := rfl
  simp only [sched]
  rw [hv, hp1, hp2, hp3]
  rw [SELW_bytesToWords, SELW_bytesToWords, SELW_bytesToWords,
    SELW_bytesToWords]
  rw [vec_sldw_btw, vec_sldw_btw, vec_sldw_btw]
  dsimp only [vec_perm, mv, vec_sld, concatByte, bytesToWords, vec_mergeh,
    vec_mergel, Nat.reduceMod, Nat.reduceAdd, Nat.reduceSub, reduceIte,
    Nat.reduceEqDiff]
  simp only [concatByte, reduceIte, Nat.reduceEqDiff, mWord, f16_val,
    Nat.reduceMod, Nat.reduceAdd, Nat.reduceSub, Nat.reduceMul,
    Prod.mk.injEq, Vu32.mk.injEq, ofBytes, mod256_mod256]
  and_intros <;> ring

set_option maxHeartbeats 1600000 in
/-- Round 2 of the vectorized message schedule delivers exactly the
sigma-selected little-endian message words. -/
theorem sched_eq2 (msg : Nat → Nat) :
    sched 2 msg =
      (⟨mWord msg (f16 11), mWord msg (f16 12), mWord msg (f16 5), mWord msg (f16 15)⟩,
       ⟨mWord msg (f16 8), mWord msg (f16 0), mWord msg (f16 2), mWord msg (f16 13)⟩,
       ⟨mWord msg (f16 10), mWord msg (f16 3), mWord msg (f16 7), mWord msg (f16 9)⟩,
       ⟨mWord msg (f16 14), mWord msg (f16 6), mWord msg (f16 1), mWord msg (f16 4)⟩) := by
  have hv : blake2s_vsigma 2 = (⟨11, 8, 12, 0, 5, 2, 15, 13, 10, 14, 3, 6, 7, 1, 9, 4⟩ : Vu8) := rfl
  have hp1 : vec_sld (⟨11, 8, 12, 0, 5, 2, 15, 13, 10, 14, 3, 6, 7, 1, 9, 4⟩ : Vu8) ⟨11, 8, 12, 0, 5, 2, 15, 13, 10, 14, 3, 6, 7, 1, 9, 4⟩ 15 = ⟨4, 11, 8, 12, 0, 5, 2, 15, 13, 10, 14, 3, 6, 7, 1, 9⟩ := rfl
  have hp2 : vec_sld (⟨4, 11, 8, 12, 0, 5, 2, 15, 13, 10, 14, 3, 6, 7, 1, 9⟩ : Vu8) ⟨4, 11, 8, 12, 0, 5, 2, 15, 13, 10, 14, 3, 6, 7, 1, 9⟩ 15 = ⟨9, 4, 11, 8, 12, 0, 5, 2, 15, 13, 10, 14, 3, 6, 7, 1⟩ := rfl
  have hp3 : vec_sld (⟨9, 4, 11, 8, 12, 0, 5, 2, 15, 13, 10, 14, 3, 6, 7, 1⟩ : Vu8) ⟨9, 4, 11, 8, 12, 0, 5, 2, 15, 13, 10, 14, 3, 6, 7, 1⟩ 15 = ⟨1, 9, 4, 11, 8, 12, 0, 5, 2, 15, 13, 10, 14, 3, 6, 7⟩ := rfl
  simp only [sched]
  rw [hv, hp1, hp2, hp3]
  rw [SELW_bytesToWords, SELW_bytesToWords, SELW_bytesToWords,
    SELW_bytesToWords]
  rw [vec_sldw_btw, vec_sldw_btw, vec_sldw_btw]
  dsimp only [vec_perm, mv, vec_sld, concatByte, bytesToWords, vec_mergeh,
    vec_mergel, Nat.reduceMod, Nat.reduceAdd, Nat.reduceSub, reduceIte,
    Nat.reduceEqDiff]
  simp only [concatByte, reduceIte, Nat.reduceEqDiff, mWord, f16_val,
    Nat.reduceMod, Nat.reduceAdd, Nat.reduceSub, Nat.reduceMul,
    Prod.mk.injEq, Vu32.mk.injEq, ofBytes, mod256_mod256]
  and_intros <;> ring

set_option maxHeartbeats 1600000 in
/-- Round 3 of the vectorized message schedule delivers exactly the
sigma-selected little-endian message words. -/
theorem sched_eq3 (msg : Nat → Nat) :
    sched 3 msg =
      (⟨mWord msg (f16 7), mWord msg (f16 3), mWord msg (f16 13), mWord msg (f16 11)⟩,
       ⟨mWord msg (f16 9), mWord msg (f16 1), mWord msg (f16 12), mWord msg (f16 14)⟩,
       ⟨mWord msg (f16 2), mWord msg (f16 5), mWord msg (f16 4), mWord msg (f16 15)⟩,
       ⟨mWord msg (f16 6), mWord msg (f16 10), mWord msg (f16 0), mWord msg (f16 8)⟩) := by
  have hv : blake2s_vsigma 3 = (⟨7, 9, 3, 1, 13, 12, 11, 14, 2, 6, 5, 10, 4, 0, 15, 8⟩ : Vu8) := rfl
  have hp1 : vec_sld (⟨7, 9, 3, 1, 13, 12, 11, 14, 2, 6, 5, 10, 4, 0, 15, 8⟩ : Vu8) ⟨7, 9, 3, 1, 13, 12, 11, 14, 2, 6, 5, 10, 4, 0, 15, 8⟩ 15 = ⟨8, 7, 9, 3, 1, 13, 12, 11, 14, 2, 6, 5, 10, 4, 0, 15⟩ := rfl
  have hp2 : vec_sld (⟨8, 7, 9, 3, 1, 13, 12, 11, 14, 2, 6, 5, 10, 4, 0, 15⟩ : Vu8) ⟨8, 7, 9, 3, 1, 13, 12, 11, 14, 2, 6, 5, 10, 4, 0, 15⟩ 15 = ⟨15, 8, 7, 9, 3, 1, 13, 12, 11, 14, 2, 6, 5, 10, 4, 0⟩ := rfl
  have hp3 : vec_sld (⟨15, 8, 7, 9, 3, 1, 13, 12, 11, 14, 2, 6, 5, 10, 4, 0⟩ : Vu8) ⟨15, 8, 7, 9, 3, 1, 13, 12, 11, 14, 2, 6, 5, 10, 4, 0⟩ 15 = ⟨0, 15, 8, 7, 9, 3, 1, 13, 12, 11, 14, 2, 6, 5, 10, 4⟩ := rfl
  simp only [sched]
  rw [hv, hp1, hp2, hp3]
  rw [SELW_bytesToWords, SELW_bytesToWords, SELW_bytesToWords,
    SELW_bytesToWords]
  rw [vec_sldw_btw, vec_sldw_btw, vec_sldw_btw]
  dsimp only [vec_perm, mv, vec_sld, concatByte, bytesToWords, vec_mergeh,
    vec_mergel, Nat.reduceMod, Nat.reduceAdd, Nat.reduceSub, reduceIte,
    Nat.reduceEqDiff]
  simp only [concatByte, reduceIte, Nat.reduceEqDiff, mWord, f16_val,
    Nat.reduceMod, Nat.reduceAdd, Nat.reduceSub, Nat.reduceMul,
    Prod.mk.injEq, Vu32.mk.injEq, ofBytes, mod256_mod256]
  and_intros <;> ring

set_option maxHeartbeats 1600000 in
/-- Round 4 of the vectorized message schedule delivers exactly the
sigma-selected little-endian message words. -/
theorem sched_eq4 (msg : Nat → Nat) :
    sched 4 msg =
      (⟨mWord msg (f16 9), mWord msg (f16 5), mWord msg (f16 2), mWord msg (f16 10)⟩,
       ⟨mWord msg (f16 0), mWord msg (f16 7), mWord msg (f16 4), mWord msg (f16 15)⟩,
       ⟨mWord msg (f16 14), mWord msg (f16 11), mWord msg (f16 6), mWord msg (f16 3)⟩,
       ⟨mWord msg (f16 1), mWord msg (f16 12), mWord msg (f16 8), mWord msg (f16 13)⟩) := by
  have hv : blake2s_vsigma 4 = (⟨9, 0, 5, 7, 2, 4, 10, 15, 14, 1, 11, 12, 6, 8, 3, 13⟩ : Vu8) := rfl
  have hp1 : vec_sld (⟨9, 0, 5, 7, 2, 4, 10, 15, 14, 1, 11, 12, 6, 8, 3, 13⟩ : Vu8) ⟨9, 0, 5, 7, 2, 4, 10, 15, 14, 1, 11, 12, 6, 8, 3, 13⟩ 15 = ⟨13, 9, 0, 5, 7, 2, 4, 10, 15, 14, 1, 11, 12, 6, 8, 3⟩ := rfl
  have hp2 : vec_sld (⟨13, 9, 0, 5, 7, 2, 4, 10, 15, 14, 1, 11, 12, 6, 8, 3⟩ : Vu8) ⟨13, 9, 0, 5, 7, 2, 4, 10, 15, 14, 1, 11, 12, 6, 8, 3⟩ 15 = ⟨3, 13, 9, 0, 5, 7, 2, 4, 10, 15, 14, 1, 11, 12, 6, 8⟩ := rfl
  have hp3 : vec_sld (⟨3, 13, 9, 0, 5, 7, 2, 4, 10, 15, 14, 1, 11, 12, 6, 8⟩ : Vu8) ⟨3, 13, 9, 0, 5, 7, 2, 4, 10, 15, 14, 1, 11, 12, 6, 8⟩ 15 = ⟨8, 3, 13, 9, 0, 5, 7, 2, 4, 10, 15, 14, 1, 11, 12, 6⟩ := rfl
  simp only [sched]
  rw [hv, hp1, hp2, hp3]
  rw [SELW_bytesToWords, SELW_bytesToWords, SELW_bytesToWords,
    SELW_bytesToWords]
  rw [vec_sldw_btw, vec_sldw_btw, vec_sldw_btw]
  dsimp only [vec_perm, mv, vec_sld, concatByte, bytesToWords, vec_mergeh,
    vec_mergel, Nat.reduceMod, Nat.reduceAdd, Nat.reduceSub, reduceIte,
    Nat.reduceEqDiff]
  simp only [concatByte, reduceIte, Nat.reduceEqDiff, mWord, f16_val,
    Nat.reduceMod, Nat.reduceAdd, Nat.reduceSub, Nat.reduceMul,
    Prod.mk.injEq, Vu32.mk.injEq, ofBytes, mod256_mod256]
  and_intros <;> ring

set_option maxHeartbeats 1600000 in
/-- Round 5 of the vectorized message schedule delivers exactly the
sigma-selected little-endian message words. -/
theorem sched_eq5 (msg : Nat → Nat) :
    sched 5 msg =
      (⟨mWord msg (f16 2), mWord msg (f16 6), mWord msg (f16 0), mWord msg (f16 8)⟩,
       ⟨mWord msg (f16 12), mWord msg (f16 10), mWord msg (f16 11), mWord msg (f16 3)⟩,
       ⟨mWord msg (f16 4), mWord msg (f16 7), mWord msg (f16 15), mWord msg (f16 1)⟩,
       ⟨mWord msg (f16 13), mWord msg (f16 5), mWord msg (f16 14), mWord msg (f16 9)⟩) := by
  have hv : blake2s_vsigma 5 = (⟨2, 12, 6, 10, 0, 11, 8, 3, 4, 13, 7, 5, 15, 14, 1, 9⟩ : Vu8) := rfl
  have hp1 : vec_sld (⟨2, 12, 6, 10, 0, 11, 8, 3, 4, 13, 7, 5, 15, 14, 1, 9⟩ : Vu8) ⟨2, 12, 6, 10, 0, 11, 8, 3, 4, 13, 7, 5, 15, 14, 1, 9⟩ 15 = ⟨9, 2, 12, 6, 10, 0, 11, 8, 3, 4, 13, 7, 5, 15, 14, 1⟩ := rfl
  have hp2 : vec_sld (⟨9, 2, 12, 6, 10, 0, 11, 8, 3, 4, 13, 7, 5, 15, 14, 1⟩ : Vu8) ⟨9, 2, 12, 6, 10, 0, 11, 8, 3, 4, 13, 7, 5, 15, 14, 1⟩ 15 = ⟨1, 9, 2, 12, 6, 10, 0, 11, 8, 3, 4, 13, 7, 5, 15, 14⟩ := rfl
  have hp3 : vec_sld (⟨1, 9, 2, 12, 6, 10, 0, 11, 8, 3, 4, 13, 7, 5, 15, 14⟩ : Vu8) ⟨1, 9, 2, 12, 6, 10, 0, 11, 8, 3, 4, 13, 7, 5, 15, 14⟩ 15 = ⟨14, 1, 9, 2, 12, 6, 10, 0, 11, 8, 3, 4, 13, 7, 5, 15⟩ := rfl
  simp only [sched]
  rw [hv, hp1, hp2, hp3]
  rw [SELW_bytesToWords, SELW_bytesToWords, SELW_bytesToWords,
    SELW_bytesToWords]
  rw [vec_sldw_btw, vec_sldw_btw, vec_sldw_btw]
  dsimp only [vec_perm, mv, vec_sld, concatByte, bytesToWords, vec_mergeh,
    vec_mergel, Nat.reduceMod, Nat.reduceAdd, Nat.reduceSub, reduceIte,
    Nat.reduceEqDiff]
  simp only [concatByte, reduceIte, Nat.reduceEqDiff, mWord, f16_val,
    Nat.reduceMod, Nat.reduceAdd, Nat.reduceSub, Nat.reduceMul,
    Prod.mk.injEq, Vu32.mk.injEq, ofBytes, mod256_mod256]
  and_intros <;> ring

set_option maxHeartbeats 1600000 in
/-- Round 6 of the vectorized message schedule delivers exactly the
sigma-selected little-endian message words. -/
theorem sched_eq6 (msg : Nat → Nat) :
    sched 6 msg =
      (⟨mWord msg (f16 12), mWord msg (f16 1), mWord msg (f16 14), mWord msg (f16 4)⟩,
       ⟨mWord msg (f16 5), mWord msg (f16 15), mWord msg (f16 13), mWord msg (f16 10)⟩,
       ⟨mWord msg (f16 0), mWord msg (f16 6), mWord msg (f16 9), mWord msg (f16 8)⟩,
       ⟨mWord msg (f16 7), mWord msg (f16 3), mWord msg (f16 2), mWord msg (f16 11)⟩) := by
  have hv : blake2s_vsigma 6 = (⟨12, 5, 1, 15, 14, 13, 4, 10, 0, 7, 6, 3, 9, 2, 8, 11⟩ : Vu8) := rfl
  have hp1 : vec_sld (⟨12, 5, 1, 15, 14, 13, 4, 10, 0, 7, 6, 3, 9, 2, 8, 11⟩ : Vu8) ⟨12, 5, 1, 15, 14, 13, 4, 10, 0, 7, 6, 3, 9, 2, 8, 11⟩ 15 = ⟨11, 12, 5, 1, 15, 14, 13, 4, 10, 0, 7, 6, 3, 9, 2, 8⟩ := rfl
  have hp2 : vec_sld (⟨11, 12, 5, 1, 15, 14, 13, 4, 10, 0, 7, 6, 3, 9, 2, 8⟩ : Vu8) ⟨11, 12, 5, 1, 15, 14, 13, 4, 10, 0, 7, 6, 3, 9, 2, 8⟩ 15 = ⟨8, 11, 12, 5, 1, 15, 14, 13, 4, 10, 0, 7, 6, 3, 9, 2⟩ := rfl
  have hp3 : vec_sld (⟨8, 11, 12, 5, 1, 15, 14, 13, 4, 10, 0, 7, 6, 3, 9, 2⟩ : Vu8) ⟨8, 11, 12, 5, 1, 15, 14, 13, 4, 10, 0, 7, 6, 3, 9, 2⟩ 15 = ⟨2, 8, 11, 12, 5, 1, 15, 14, 13, 4, 10, 0, 7, 6, 3, 9⟩ := rfl
  simp only [sched]
  rw [hv, hp1, hp2, hp3]
  rw [SELW_bytesToWords, SELW_bytesToWords, SELW_bytesToWords,
    SELW_bytesToWords]
  rw [vec_sldw_btw, vec_sldw_btw, vec_sldw_btw]
  dsimp only [vec_perm, mv, vec_sld, concatByte, bytesToWords, vec_mergeh,
    vec_mergel, Nat.reduceMod, Nat.reduceAdd, Nat.reduceSub, reduceIte,
    Nat.reduceEqDiff]
  simp only [concatByte, reduceIte, Nat.reduceEqDiff, mWord, f16_val,
    Nat.reduceMod, Nat.reduceAdd, Nat.reduceSub, Nat.reduceMul,
    Prod.mk.injEq, Vu32.mk.injEq, ofBytes, mod256_mod256]
  and_intros <;> ring

set_option maxHeartbeats 1600000 in
/-- Round 7 of the vectorized message schedule delivers exactly the
sigma-selected little-endian message words. -/
theorem sched_eq7 (msg : Nat → Nat) :
    sched 7 msg =
      (⟨mWord msg (f16 13), mWord msg (f16 7), mWord msg (f16 12), mWord msg (f16 3)⟩,
       ⟨mWord msg (f16 11), mWord msg (f16 14), mWord msg (f16 1), mWord msg (f16 9)⟩,
       ⟨mWord msg (f16 5), mWord msg (f16 15), mWord msg (f16 8), mWord msg (f16 2)⟩,
       ⟨mWord msg (f16 0), mWord msg (f16 4), mWord msg (f16 6), mWord msg (f16 10)⟩) := by
  have hv : blake2s_vsigma 7 = (⟨13, 11, 7, 14, 12, 1, 3, 9, 5, 0, 15, 4, 8, 6, 2, 10⟩ : Vu8) := rfl
  have hp1 : vec_sld (⟨13, 11, 7, 14, 12, 1, 3, 9, 5, 0, 15, 4, 8, 6, 2, 10⟩ : Vu8) ⟨13, 11, 7, 14, 12, 1, 3, 9, 5, 0, 15, 4, 8, 6, 2, 10⟩ 15 = ⟨10, 13, 11, 7, 14, 12, 1, 3, 9, 5, 0, 15, 4, 8, 6, 2⟩ := rfl
  have hp2 : vec_sld (⟨10, 13, 11, 7, 14, 12, 1, 3, 9, 5, 0, 15, 4, 8, 6, 2⟩ : Vu8) ⟨10, 13, 11, 7, 14, 12, 1, 3, 9, 5, 0, 15, 4, 8, 6, 2⟩ 15 = ⟨2, 10, 13, 11, 7, 14, 12, 1, 3, 9, 5, 0, 15, 4, 8, 6⟩ := rfl
  have hp3 : vec_sld (⟨2, 10, 13, 11, 7, 14, 12, 1, 3, 9, 5, 0, 15, 4, 8, 6⟩ : Vu8) ⟨2, 10, 13, 11, 7, 14, 12, 1, 3, 9, 5, 0, 15, 4, 8, 6⟩ 15 = ⟨6, 2, 10, 13, 11, 7, 14, 12, 1, 3, 9, 5, 0, 15, 4, 8⟩ := rfl
  simp only [sched]
  rw [hv, hp1, hp2, hp3]
  rw [SELW_bytesToWords, SELW_bytesToWords, SELW_bytesToWords,
    SELW_bytesToWords]
  rw [vec_sldw_btw, vec_sldw_btw, vec_sldw_btw]
  dsimp only [vec_perm, mv, vec_sld, concatByte, bytesToWords, vec_mergeh,
    vec_mergel, Nat.reduceMod, Nat.reduceAdd, Nat.reduceSub, reduceIte,
    Nat.reduceEqDiff]
  simp only [concatByte, reduceIte, Nat.reduceEqDiff, mWord, f16_val,
    Nat.reduceMod, Nat.reduceAdd, Nat.reduceSub, Nat.reduceMul,
    Prod.mk.injEq, Vu32.mk.injEq, ofBytes, mod256_mod256]
  and_intros <;> ring

set_option maxHeartbeats 1600000 in
/-- Round 8 of the vectorized message schedule delivers exactly the
sigma-selected little-endian message words. -/
theorem sched_eq8 (msg : Nat → Nat) :
    sched 8 msg =
      (⟨mWord msg (f16 6), mWord msg (f16 14), mWord msg (f16 11), mWord msg (f16 0)⟩,
       ⟨mWord msg (f16 15), mWord msg (f16 9), mWord msg (f16 3), mWord msg (f16 8)⟩,
       ⟨mWord msg (f16 12), mWord msg (f16 13), mWord msg (f16 1), mWord msg (f16 10)⟩,
       ⟨mWord msg (f16 2), mWord msg (f16 7), mWord msg (f16 4), mWord msg (f16 5)⟩) := by
  have hv : blake2s_vsigma 8 = (⟨6, 15, 14, 9, 11, 3, 0, 8, 12, 2, 13, 7, 1, 4, 10, 5⟩ : Vu8) := rfl
  have hp1 : vec_sld (⟨6, 15, 14, 9, 11, 3, 0, 8, 12, 2, 13, 7, 1, 4, 10, 5⟩ : Vu8) ⟨6, 15, 14, 9, 11, 3, 0, 8, 12, 2, 13, 7, 1, 4, 10, 5⟩ 15 = ⟨5, 6, 15, 14, 9, 11, 3, 0, 8, 12, 2, 13, 7, 1, 4, 10⟩ := rfl
  have hp2 : vec_sld (⟨5, 6, 15, 14, 9, 11, 3, 0, 8, 12, 2, 13, 7, 1, 4, 10⟩ : Vu8) ⟨5, 6, 15, 14, 9, 11, 3, 0, 8, 12, 2, 13, 7, 1, 4, 10⟩ 15 = ⟨10, 5, 6, 15, 14, 9, 11, 3, 0, 8, 12, 2, 13, 7, 1, 4⟩ := rfl
  have hp3 : vec_sld (⟨10, 5, 6, 15, 14, 9, 11, 3, 0, 8, 12, 2, 13, 7, 1, 4⟩ : Vu8) ⟨10, 5, 6, 15, 14, 9, 11, 3, 0, 8, 12, 2, 13, 7, 1, 4⟩ 15 = ⟨4, 10, 5, 6, 15, 14, 9, 11, 3, 0, 8, 12, 2, 13, 7, 1⟩ := rfl
  simp only [sched]
  rw [hv, hp1, hp2, hp3]
  rw [SELW_bytesToWords, SELW_bytesToWords, SELW_bytesToWords,
    SELW_bytesToWords]
  rw [vec_sldw_btw, vec_sldw_btw, vec_sldw_btw]
  dsimp only [vec_perm, mv, vec_sld, concatByte, bytesToWords, vec_mergeh,
    vec_mergel, Nat.reduceMod, Nat.reduceAdd, Nat.reduceSub, reduceIte,
    Nat.reduceEqDiff]
  simp only [concatByte, reduceIte, Nat.reduceEqDiff, mWord, f16_val,
    Nat.reduceMod, Nat.reduceAdd, Nat.reduceSub, Nat.reduceMul,
    Prod.mk.injEq, Vu32.mk.injEq, ofBytes, mod256_mod256]
  and_intros <;> ring

set_option maxHeartbeats 1600000 in
/-- Round 9 of the vectorized message schedule delivers exactly the
sigma-selected little-endian message words. -/
theorem sched_eq9 (msg : Nat → Nat) :
    sched 9 msg =
      (⟨mWord msg (f16 10), mWord msg (f16 8), mWord msg (f16 7), mWord msg (f16 1)⟩,
       ⟨mWord msg (f16 2), mWord msg (f16 4), mWord msg (f16 6), mWord msg (f16 5)⟩,
       ⟨mWord msg (f16 15), mWord msg (f16 9), mWord msg (f16 3), mWord msg (f16 13)⟩,
       ⟨mWord msg (f16 11), mWord msg (f16 14), mWord msg (f16 12), mWord msg (f16 0)⟩) := by
  have hv : blake2s_vsigma 9 = (⟨10, 2, 8, 4, 7, 6, 1, 5, 15, 11, 9, 14, 3, 12, 13, 0⟩ : Vu8) := rfl
  have hp1 : vec_sld (⟨10, 2, 8, 4, 7, 6, 1, 5, 15, 11, 9, 14, 3, 12, 13, 0⟩ : Vu8) ⟨10, 2, 8, 4, 7, 6, 1, 5, 15, 11, 9, 14, 3, 12, 13, 0⟩ 15 = ⟨0, 10, 2, 8, 4, 7, 6, 1, 5, 15, 11, 9, 14, 3, 12, 13⟩ := rfl
  have hp2 : vec_sld (⟨0, 10, 2, 8, 4, 7, 6, 1, 5, 15, 11, 9, 14, 3, 12, 13⟩ : Vu8) ⟨0, 10, 2, 8, 4, 7, 6, 1, 5, 15, 11, 9, 14, 3, 12, 13⟩ 15 = ⟨13, 0, 10, 2, 8, 4, 7, 6, 1, 5, 15, 11, 9, 14, 3, 12⟩ := rfl
  have hp3 : vec_sld (⟨13, 0, 10, 2, 8, 4, 7, 6, 1, 5, 15, 11, 9, 14, 3, 12⟩ : Vu8) ⟨13, 0, 10, 2, 8, 4, 7, 6, 1, 5, 15, 11, 9, 14, 3, 12⟩ 15 = ⟨12, 13, 0, 10, 2, 8, 4, 7, 6, 1, 5, 15, 11, 9, 14, 3⟩ := rfl
  simp only [sched]
  rw [hv, hp1, hp2, hp3]
  rw [SELW_bytesToWords, SELW_bytesToWords, SELW_bytesToWords,
    SELW_bytesToWords]
  rw [vec_sldw_btw, vec_sldw_btw, vec_sldw_btw]
  dsimp only [vec_perm, mv, vec_sld, concatByte, bytesToWords, vec_mergeh,
    vec_mergel, Nat.reduceMod, Nat.reduceAdd, Nat.reduceSub, reduceIte,
    Nat.reduceEqDiff]
  simp only [concatByte, reduceIte, Nat.reduceEqDiff, mWord, f16_val,
    Nat.reduceMod, Nat.reduceAdd, Nat.reduceSub, Nat.reduceMul,
    Prod.mk.injEq, Vu32.mk.injEq, ofBytes, mod256_mod256]
  and_intros <;> ring

/-- The vectorized `BLAKE2S_VG` computes, lane by lane, exactly the scalar
mixing function G of the specification: left rotations by 16, 20, 24, 25
realize the right rotations by 16, 12, 8, 7. -/
theorem BLAKE2S_VG_eq (M N a b c d : Vu32) :
    BLAKE2S_VG M N a b c d =
      (⟨(specG M.w0 N.w0 (a.w0, b.w0, c.w0, d.w0)).1,
        (specG M.w1 N.w1 (a.w1, b.w1, c.w1, d.w1)).1,
        (specG M.w2 N.w2 (a.w2, b.w2, c.w2, d.w2)).1,
        (specG M.w3 N.w3 (a.w3, b.w3, c.w3, d.w3)).1⟩,
       ⟨(specG M.w0 N.w0 (a.w0, b.w0, c.w0, d.w0)).2.1,
        (specG M.w1 N.w1 (a.w1, b.w1, c.w1, d.w1)).2.1,
        (specG M.w2 N.w2 (a.w2, b.w2, c.w2, d.w2)).2.1,
        (specG M.w3 N.w3 (a.w3, b.w3, c.w3, d.w3)).2.1⟩,
       ⟨(specG M.w0 N.w0 (a.w0, b.w0, c.w0, d.w0)).2.2.1,
        (specG M.w1 N.w1 (a.w1, b.w1, c.w1, d.w1)).2.2.1,
        (specG M.w2 N.w2 (a.w2, b.w2, c.w2, d.w2)).2.2.1,
        (specG M.w3 N.w3 (a.w3, b.w3, c.w3, d.w3)).2.2.1⟩,
       ⟨(specG M.w0 N.w0 (a.w0, b.w0, c.w0, d.w0)).2.2.2,
        (specG M.w1 N.w1 (a.w1, b.w1, c.w1, d.w1)).2.2.2,
        (specG M.w2 N.w2 (a.w2, b.w2, c.w2, d.w2)).2.2.2,
        (specG M.w3 N.w3 (a.w3, b.w3, c.w3, d.w3)).2.2.2⟩) := by
  dsimp only [BLAKE2S_VG, specG, vadd, vxor, vrl, vr1, vr2, vr3, vr4]
  simp only [rotl32_16, rotl32_20, rotl32_24, rotl32_25]

theorem specG_a_mod (m n : Nat) (q : Nat × Nat × Nat × Nat) :
    (specG m n q).1 % w32 = (specG m n q).1 := by
  dsimp only [specG]; exact add32_mod_self _ _

theorem specG_b_mod (m n : Nat) (q : Nat × Nat × Nat × Nat) :
    (specG m n q).2.1 % w32 = (specG m n q).2.1 := by
  dsimp only [specG]; exact rotr32_mod_self _ _

theorem specG_c_mod (m n : Nat) (q : Nat × Nat × Nat × Nat) :
    (specG m n q).2.2.1 % w32 = (specG m n q).2.2.1 := by
  dsimp only [specG]; exact add32_mod_self _ _

theorem specG_d_mod (m n : Nat) (q : Nat × Nat × Nat × Nat) :
    (specG m n q).2.2.2 % w32 = (specG m n q).2.2.2 := by
  dsimp only [specG]; exact rotr32_mod_self _ _

/-- The message schedule of every round delivers, as the four G-operand
vectors, exactly the sigma-selected little-endian message words: lane `j`
of the column operands holds `m[sigma[r][2j]]` and `m[sigma[r][2j+1]]`,
lane `j` of the diagonal operands holds `m[sigma[r][8+2j]]` and
`m[sigma[r][9+2j]]`. -/
theorem sched_eq (r : Fin 10) (msg : Nat → Nat) :
    sched r msg =
      (⟨mWord msg (sidx r (f16 0)), mWord msg (sidx r (f16 2)),
        mWord msg (sidx r (f16 4)), mWord msg (sidx r (f16 6))⟩,
       ⟨mWord msg (sidx r (f16 1)), mWord msg (sidx r (f16 3)),
        mWord msg (sidx r (f16 5)), mWord msg (sidx r (f16 7))⟩,
       ⟨mWord msg (sidx r (f16 8)), mWord msg (sidx r (f16 10)),
        mWord msg (sidx r (f16 12)), mWord msg (sidx r (f16 14))⟩,
       ⟨mWord msg (sidx r (f16 9)), mWord msg (sidx r (f16 11)),
        mWord msg (sidx r (f16 13)), mWord msg (sidx r (f16 15))⟩) := by
  fin_cases r
  · exact (sched_eq0 msg).trans rfl
  · exact (sched_eq1 msg).trans rfl
  · exact (sched_eq2 msg).trans rfl
  · exact (sched_eq3 msg).trans rfl
  · exact (sched_eq4 msg).trans rfl
  · exact (sched_eq5 msg).trans rfl
  · exact (sched_eq6 msg).trans rfl
  · exact (sched_eq7 msg).trans rfl
  · exact (sched_eq8 msg).trans rfl
  · exact (sched_eq9 msg).trans rfl

set_option maxHeartbeats 3200000 in
/-- One vectorized `FULLROUND` tracks one scalar round through the
lane-to-state correspondence. -/
theorem round_corr (r : Fin 10) (msg : Nat → Nat)
    (s : Vu32 × Vu32 × Vu32 × Vu32) :
    corr (FULLROUND r msg s) = specRound r msg (corr s) := by
  simp only [FULLROUND, sched_eq, BLAKE2S_VG_eq, vec_sldw4, vec_sldw8,
    vec_sldw12, specG_a_mod, specG_b_mod, specG_c_mod, specG_d_mod]
  funext i
  fin_cases i <;>
    simp only [corr, specRound, applyG, f16_val, Nat.reduceMod,
      Nat.reduceEqDiff, reduceIte, Fin.isValue]

/-- The ten unrolled vector rounds track the ten scalar rounds. -/
theorem rounds_corr (msg : Nat → Nat) (s : Vu32 × Vu32 × Vu32 × Vu32) :
    corr (blake2s_rounds s msg) = specRounds msg (corr s) := by
  simp only [blake2s_rounds, specRounds, round_corr]

/-- The vector loader realizes the scalar working-state initialization. -/
theorem load_corr (ctx : blake2s_ctx) :
    corr (blake2s_load ctx) = specLoad ctx := by
  funext i
  fin_cases i <;>
    simp [corr, blake2s_load, specLoad, Hsel, tfsel, tfWord, blake2s_viv0,
      blake2s_viv1, IVfn, vxor]

/-- C1.  For every context and 64-byte block, the AltiVec `blake2s_compress`
computes exactly the scalar reference pipeline of the specification:
loader, ten column-then-diagonal rounds, finalizer; the vectorized 4-lane,
byte-sliced, lane-shuffled implementation is output-equal to the scalar
compression. -/
theorem c1_compress_refines_scalar (ctx : blake2s_ctx) (m : Nat → Nat) :
    blake2s_compress ctx m = blake2s_compress_spec ctx m := by
  have h : corr (blake2s_rounds (blake2s_load ctx) m) =
      specRounds m (specLoad ctx) := by
    rw [rounds_corr, load_corr]
  dsimp only [blake2s_compress, blake2s_compress_spec, blake2s_10rounds]
  rw [← h]
  simp only [vxor, corr, f16_val, Nat.reduceMod, Nat.reduceEqDiff, reduceIte]

/-- The 64-byte test block of RFC 7693 Appendix B: ascii `abc`,
zero-padded. -/
def abcBlock : Nat → Nat := fun i =>
  if i = 0 then 0x61 else if i = 1 then 0x62 else if i = 2 then 0x63 else 0

/-- The compression input of the RFC 7693 Appendix B example: the BLAKE2s-256
initial chaining value (IV with the parameter word `0x01010020` xored into
`h0`), counter `t = 3` (bytes hashed), final-block flag set. -/
def rfcCtx : blake2s_ctx :=
  { H := ⟨0x6b08e647, 0xbb67ae85, 0x3c6ef372, 0xa54ff53a,
          0x510e527f, 0x9b05688c, 0x1f83d9ab, 0x5be0cd19⟩,
    t0 := 3, t1 := 0, f0 := 0xffffffff, f1 := 0 }

/-- The input the claim describes: the all-zero chaining value combined
with the standard initialization vector (`H = IV`), counter `t = (0,0)`,
flags `f = (0,0)`. -/
def claimCtx : blake2s_ctx :=
  { H := ⟨0x6a09e667, 0xbb67ae85, 0x3c6ef372, 0xa54ff53a,
          0x510e527f, 0x9b05688c, 0x1f83d9ab, 0x5be0cd19⟩,
    t0 := 0, t1 := 0, f0 := 0, f1 := 0 }

set_option maxRecDepth 1000000 in
/-- C2 (counterexample).  On the inputs the claim names — chaining value
`0 xor IV`, counter `(0,0)`, flags `(0,0)`, and the fixed RFC 7693 test
block — the compression does not produce the first word `0x8c5e8c50` of
the chaining value published for the RFC 7693 BLAKE2s example. -/
theorem c2_claim_input_misses_rfc_vector :
    (blake2s_compress claimCtx abcBlock).H.h0 ≠ 0x8c5e8c50 := by decide

set_option maxRecDepth 1000000 in
/-- C2 (amended).  On the actual RFC 7693 Appendix B compression input —
the BLAKE2s-256 initial chaining value, `t = (3,0)`, `f = (0xffffffff,0)`,
block `abc` zero-padded — `blake2s_compress` produces exactly the 8-word
chaining value of the published digest
`508C5E8C 327C14E2 E1A72BA3 4EEB452F 37458B20 9ED63A29 4D999B4C 86675982`
read as little-endian words. -/
theorem c2_rfc_vector :
    (blake2s_compress rfcCtx abcBlock).H.h0 = 0x8c5e8c50 ∧
    (blake2s_compress rfcCtx abcBlock).H.h1 = 0xe2147c32 ∧
    (blake2s_compress rfcCtx abcBlock).H.h2 = 0xa32ba7e1 ∧
    (blake2s_compress rfcCtx abcBlock).H.h3 = 0x2f45eb4e ∧
    (blake2s_compress rfcCtx abcBlock).H.h4 = 0x208b4537 ∧
    (blake2s_compress rfcCtx abcBlock).H.h5 = 0x293ad69e ∧
    (blake2s_compress rfcCtx abcBlock).H.h6 = 0x4c9b994d ∧
    (blake2s_compress rfcCtx abcBlock).H.h7 = 0x82596786 := by decide

/-- C3.  For every 64-byte block and round, the byte-sliced transposed
load followed by the `vec_perm`/`SELW`/`vec_sld`/`vec_merge` reassembly
yields, in lane `j` of the four G-operand vectors, exactly the message
words `m[sigma[r][2j]]`, `m[sigma[r][2j+1]]` (columns) and
`m[sigma[r][8+2j]]`, `m[sigma[r][9+2j]]` (diagonals), where `m[i]` is the
naive little-endian 32-bit word occupying block bytes `[4i, 4i+4)`. -/
theorem c3_schedule_is_le_words (msg : Nat → Nat) (r : Fin 10) :
    sched r msg =
      (⟨mWord msg (sidx r (f16 0)), mWord msg (sidx r (f16 2)),
        mWord msg (sidx r (f16 4)), mWord msg (sidx r (f16 6))⟩,
       ⟨mWord msg (sidx r (f16 1)), mWord msg (sidx r (f16 3)),
        mWord msg (sidx r (f16 5)), mWord msg (sidx r (f16 7))⟩,
       ⟨mWord msg (sidx r (f16 8)), mWord msg (sidx r (f16 10)),
        mWord msg (sidx r (f16 12)), mWord msg (sidx r (f16 14))⟩,
       ⟨mWord msg (sidx r (f16 9)), mWord msg (sidx r (f16 11)),
        mWord msg (sidx r (f16 13)), mWord msg (sidx r (f16 15))⟩) :=
  sched_eq r msg

/-- C4.  The table `blake2s_vsigma` equals the RFC 7693 BLAKE2s sigma
schedule entry for entry; each of its 10 rows is a permutation of 0..15;
and for every round the schedule feeds positions `(2k, 2k+1)` of
`sigma[r]` as the `(M, N)` pair of the `k`-th G — entries 0..7 to the four
column applications, entries 8..15 to the four diagonal applications. -/
theorem c4_sigma_table :
    (∀ r : Fin 10, ∀ i : Fin 16, vsig r.val i.val = rfc_sigma r.val i.val) ∧
    (∀ r : Fin 10, ∀ n : Fin 16, ∃ i : Fin 16, vsig r.val i.val = n.val) ∧
    (∀ (msg : Nat → Nat) (r : Fin 10),
      sched r msg =
        (⟨mWord msg (sidx r (f16 0)), mWord msg (sidx r (f16 2)),
          mWord msg (sidx r (f16 4)), mWord msg (sidx r (f16 6))⟩,
         ⟨mWord msg (sidx r (f16 1)), mWord msg (sidx r (f16 3)),
          mWord msg (sidx r (f16 5)), mWord msg (sidx r (f16 7))⟩,
         ⟨mWord msg (sidx r (f16 8)), mWord msg (sidx r (f16 10)),
          mWord msg (sidx r (f16 12)), mWord msg (sidx r (f16 14))⟩,
         ⟨mWord msg (sidx r (f16 9)), mWord msg (sidx r (f16 11)),
          mWord msg (sidx r (f16 13)), mWord msg (sidx r (f16 15))⟩)) :=
  ⟨by decide, by decide, fun msg r => sched_eq r msg⟩

/-- C5.  Every application of the vectorized mixing function performs, in
each 32-bit lane, exactly the eight ARX steps
`a = a+b+M; d = ror(d^a,16); c = c+d; b = ror(b^c,12); a = a+b+N;
d = ror(d^a,8); c = c+d; b = ror(b^c,7)` with wrapping additions; the
code's left rotations by 16, 20, 24, 25 realize those right rotations. -/
theorem c5_G_is_arx (M N a b c d : Vu32) :
    BLAKE2S_VG M N a b c d =
      (⟨(specG M.w0 N.w0 (a.w0, b.w0, c.w0, d.w0)).1,
        (specG M.w1 N.w1 (a.w1, b.w1, c.w1, d.w1)).1,
        (specG M.w2 N.w2 (a.w2, b.w2, c.w2, d.w2)).1,
        (specG M.w3 N.w3 (a.w3, b.w3, c.w3, d.w3)).1⟩,
       ⟨(specG M.w0 N.w0 (a.w0, b.w0, c.w0, d.w0)).2.1,
        (specG M.w1 N.w1 (a.w1, b.w1, c.w1, d.w1)).2.1,
        (specG M.w2 N.w2 (a.w2, b.w2, c.w2, d.w2)).2.1,
        (specG M.w3 N.w3 (a.w3, b.w3, c.w3, d.w3)).2.1⟩,
       ⟨(specG M.w0 N.w0 (a.w0, b.w0, c.w0, d.w0)).2.2.1,
        (specG M.w1 N.w1 (a.w1, b.w1, c.w1, d.w1)).2.2.1,
        (specG M.w2 N.w2 (a.w2, b.w2, c.w2, d.w2)).2.2.1,
        (specG M.w3 N.w3 (a.w3, b.w3, c.w3, d.w3)).2.2.1⟩,
       ⟨(specG M.w0 N.w0 (a.w0, b.w0, c.w0, d.w0)).2.2.2,
        (specG M.w1 N.w1 (a.w1, b.w1, c.w1, d.w1)).2.2.2,
        (specG M.w2 N.w2 (a.w2, b.w2, c.w2, d.w2)).2.2.2,
        (specG M.w3 N.w3 (a.w3, b.w3, c.w3, d.w3)).2.2.2⟩) :=
  BLAKE2S_VG_eq M N a b c d

/-- C6.  For every context, the loader initializes the working state as
`v[0..8) = H`, `v[8..12) = IV[0..4)`, `v[12..16) = IV[4..8)` xor
`(t0, t1, f0, f1)`; nothing else enters the initial state. -/
theorem c6_loader (ctx : blake2s_ctx) :
    corr (blake2s_load ctx) = specLoad ctx :=
  load_corr ctx

/-- C7.  After the ten rounds, the finalizer sets
`new H[i] = old H[i] xor v[i] xor v[i+8]` for every `i < 8`, where `v` is
the post-round working state, and writes only that back into the context's
chaining value. -/
theorem c7_finalizer (ctx : blake2s_ctx) (m : Nat → Nat) :
    (blake2s_compress ctx m).H.h0 =
      xor32 ctx.H.h0 (xor32 (corr (blake2s_rounds (blake2s_load ctx) m) (f16 0))
        (corr (blake2s_rounds (blake2s_load ctx) m) (f16 8))) ∧
    (blake2s_compress ctx m).H.h1 =
      xor32 ctx.H.h1 (xor32 (corr (blake2s_rounds (blake2s_load ctx) m) (f16 1))
        (corr (blake2s_rounds (blake2s_load ctx) m) (f16 9))) ∧
    (blake2s_compress ctx m).H.h2 =
      xor32 ctx.H.h2 (xor32 (corr (blake2s_rounds (blake2s_load ctx) m) (f16 2))
        (corr (blake2s_rounds (blake2s_load ctx) m) (f16 10))) ∧
    (blake2s_compress ctx m).H.h3 =
      xor32 ctx.H.h3 (xor32 (corr (blake2s_rounds (blake2s_load ctx) m) (f16 3))
        (corr (blake2s_rounds (blake2s_load ctx) m) (f16 11))) ∧
    (blake2s_compress ctx m).H.h4 =
      xor32 ctx.H.h4 (xor32 (corr (blake2s_rounds (blake2s_load ctx) m) (f16 4))
        (corr (blake2s_rounds (blake2s_load ctx) m) (f16 12))) ∧
    (blake2s_compress ctx m).H.h5 =
      xor32 ctx.H.h5 (xor32 (corr (blake2s_rounds (blake2s_load ctx) m) (f16 5))
        (corr (blake2s_rounds (blake2s_load ctx) m) (f16 13))) ∧
    (blake2s_compress ctx m).H.h6 =
      xor32 ctx.H.h6 (xor32 (corr (blake2s_rounds (blake2s_load ctx) m) (f16 6))
        (corr (blake2s_rounds (blake2s_load ctx) m) (f16 14))) ∧
    (blake2s_compress ctx m).H.h7 =
      xor32 ctx.H.h7 (xor32 (corr (blake2s_rounds (blake2s_load ctx) m) (f16 7))
        (corr (blake2s_rounds (blake2s_load ctx) m) (f16 15))) := by
  dsimp only [blake2s_compress, blake2s_10rounds]
  simp only [vxor, corr, f16_val, Nat.reduceMod, Nat.reduceEqDiff, reduceIte]
  and_intros <;> first | rfl | trivial

/-- C8.  `blake2s_compress` mutates only the chaining value: the counter
words and flag words of the context are unchanged (the message block,
being a read-only input of the pure model, is untouched by construction). -/
theorem c8_frame (ctx : blake2s_ctx) (m : Nat → Nat) :
    (blake2s_compress ctx m).t0 = ctx.t0 ∧
    (blake2s_compress ctx m).t1 = ctx.t1 ∧
    (blake2s_compress ctx m).f0 = ctx.f0 ∧
    (blake2s_compress ctx m).f1 = ctx.f1 :=
  ⟨rfl, rfl, rfl, rfl⟩

end B2S
